import Mathlib

/-!
Verification development for the bundled scm-slang evaluator
(src/dist/index.js): a shallow embedding of its numeric tower,
numeric-lexeme classifier, simple tokenizer/parser and CSE machine,
together with theorems settling the specification claims.

Modelling conventions:
* JavaScript BigInt is modelled as Int; BigInt division and remainder
  truncate toward zero, hence Int.tdiv / Int.tmod.
* JavaScript doubles are modelled as exact rationals plus the IEEE
  sentinels (JSNum below).  All concrete programs exercised by the
  claims stay within the range where double arithmetic is exact, and
  the properties proved (commutativity, level bookkeeping) are
  preserved by IEEE rounding, which rounds the symmetric exact sum.
* Source positions (line/column) are not carried: no claim observes
  them.  Host-thrown exceptions are modelled with Except String.
-/

/-! ### Exact rationals that the kernel can evaluate

Mathlib rational arithmetic normalizes through well-founded recursion
that concrete proofs cannot unfold, so the JS double values are
modelled by a small canonical-fraction type with a structurally
recursive gcd. -/

/-- Euclid with fuel; fuel a + 1 always suffices since the first
argument strictly decreases. -/
def natGcdAux : Nat → Nat → Nat → Nat
  | 0, _, b => b
  | fuel + 1, a, b => if a = 0 then b else natGcdAux fuel (b % a) a

/-- Greatest common divisor (structurally recursive). -/
def natGcd (a b : Nat) : Nat := natGcdAux (a + 1) a b

/-- Powers of ten as integers (structurally recursive). -/
def intPow10 : Nat → Int
  | 0 => 1
  | k + 1 => 10 * intPow10 k

/-- An exact rational in lowest terms with positive denominator,
modelling a finite JS double value exactly. -/
structure QV where
  num : Int
  den : Int
deriving DecidableEq, Repr

namespace QV

/-- Canonicalize a fraction: positive denominator, lowest terms.  A
zero denominator cannot be produced by the modelled code (division by
zero raises first); it is mapped to the junk value 0/0. -/
def make (n d : Int) : QV :=
  if d = 0 then ⟨0, 0⟩
  else
    let s : Int := if d < 0 then -1 else 1
    let n' := s * n
    let d' := s * d
    let g : Int := (natGcd n'.natAbs d'.natAbs : Int)
    ⟨n'.tdiv g, d'.tdiv g⟩

/-- Zero. -/
def zero : QV := ⟨0, 1⟩

/-- One. -/
def one : QV := ⟨1, 1⟩

/-- Embed an integer. -/
def ofInt (v : Int) : QV := ⟨v, 1⟩

/-- Addition. -/
def add (a b : QV) : QV := make (a.num * b.den + b.num * a.den) (a.den * b.den)

/-- Multiplication. -/
def mul (a b : QV) : QV := make (a.num * b.num) (a.den * b.den)

/-- Negation (canonical form is preserved). -/
def neg (a : QV) : QV := ⟨-a.num, a.den⟩

/-- Subtraction. -/
def sub (a b : QV) : QV := add a (neg b)

/-- Division. -/
def div (a b : QV) : QV := make (a.num * b.den) (a.den * b.num)

/-- Strict order (denominators are positive in canonical form). -/
def lt (a b : QV) : Bool := a.num * b.den < b.num * a.den

/-- Non-strict order. -/
def le (a b : QV) : Bool := a.num * b.den ≤ b.num * a.den

/-- Positivity. -/
def isPos (a : QV) : Bool := 0 < a.num

/-- Negativity. -/
def isNeg (a : QV) : Bool := a.num < 0

/-- Scaling by a power of ten (for decimal exponents). -/
def pow10 : Int → QV
  | .ofNat k => ⟨intPow10 k, 1⟩
  | .negSucc k => ⟨1, intPow10 (k + 1)⟩

end QV

/-! ### JavaScript number model -/

/-- A JavaScript double, modelled as an exact rational or one of the
IEEE sentinels.  Negative zero is identified with zero: in the source,
SchemeReal.build tests value === 0 first and -0 === 0 holds in JS, so
the INEXACT_NEG_ZERO branch is dead code. -/
inductive JSNum where
  | finite (q : QV)
  | inf
  | negInf
  | nan
deriving DecidableEq, Repr

namespace JSNum

/-- JS + on doubles (exact on finite values; IEEE sentinel rules). -/
def add : JSNum → JSNum → JSNum
  | nan, _ => nan
  | _, nan => nan
  | inf, negInf => nan
  | negInf, inf => nan
  | inf, _ => inf
  | _, inf => inf
  | negInf, _ => negInf
  | _, negInf => negInf
  | finite a, finite b => finite (QV.add a b)

/-- JS * on doubles (exact on finite values; IEEE sentinel rules). -/
def mul : JSNum → JSNum → JSNum
  | nan, _ => nan
  | _, nan => nan
  | inf, inf => inf
  | inf, negInf => negInf
  | negInf, inf => negInf
  | negInf, negInf => inf
  | inf, finite q => if q.isPos then inf else if q.isNeg then negInf else nan
  | finite q, inf => if q.isPos then inf else if q.isNeg then negInf else nan
  | negInf, finite q => if q.isPos then negInf else if q.isNeg then inf else nan
  | finite q, negInf => if q.isPos then negInf else if q.isNeg then inf else nan
  | finite a, finite b => finite (QV.mul a b)

/-- JS unary minus on doubles. -/
def neg : JSNum → JSNum
  | finite q => finite (QV.neg q)
  | inf => negInf
  | negInf => inf
  | nan => nan

/-- JS === on doubles: NaN is not equal to itself. -/
def jsEq : JSNum → JSNum → Bool
  | finite a, finite b => a = b
  | inf, inf => true
  | negInf, negInf => true
  | _, _ => false

/-- JS > on doubles: any comparison with NaN is false. -/
def jsGt : JSNum → JSNum → Bool
  | finite a, finite b => QV.lt b a
  | inf, finite _ => true
  | inf, negInf => true
  | finite _, negInf => true
  | _, _ => false

end JSNum

/-- Number.MAX_SAFE_INTEGER, that is 2 to the 53rd minus 1. -/
def maxSafeInteger : Int := 2 ^ 53 - 1

/-- Number.MAX_VALUE as an exact rational. -/
def jsMaxValue : QV := ⟨2 ^ 1024 - 2 ^ 971, 1⟩

/-! ### The gcd helper of SchemeRational.simplify

The source (line 3413) recurses with the JS remainder operator, whose
result carries the sign of the dividend; this is Int.tmod.  The
recursion strictly decreases the absolute value of the second
argument, so natAbs b + 1 rounds of fuel always suffice. -/

def jsGcdAux : Nat → Int → Int → Int
  | 0, a, _ => a
  | fuel + 1, a, b => if b = 0 then a else jsGcdAux fuel b (a.tmod b)
  -- natAbs (a.tmod b) < natAbs b whenever b is nonzero, so the chain
  -- of second arguments strictly shrinks and natAbs b + 1 rounds of
  -- fuel always reach the zero remainder

/-- gcd as written in SchemeRational.simplify: Euclid with the JS
remainder, so the result carries the sign of the last nonzero
remainder (it can be negative). -/
def jsGcd (a b : Int) : Int := jsGcdAux (b.natAbs + 1) a b

/-! ### Numeric tower values

SchemeComplex stores non-complex parts (every call site passes an
integer, rational or real part), so the embedding separates the three
basic levels from the complex level. -/

/-- A non-complex tower value: SchemeInteger, SchemeRational or
SchemeReal from the source. -/
inductive BasicNumber where
  | int (value : Int)
  | rat (numerator denominator : Int)
  | real (value : JSNum)
deriving DecidableEq, Repr

/-- Any tower value; complex numbers carry basic parts. -/
inductive SchemeNumber where
  | basic (b : BasicNumber)
  | complex (re im : BasicNumber)
deriving DecidableEq, Repr

namespace BasicNumber

/-- numberType of a non-complex value (NumberType enum, lines 3061-3067). -/
def level : BasicNumber → Nat
  | int _ => 1
  | rat _ _ => 2
  | real _ => 3

end BasicNumber

namespace SchemeNumber

/-- numberType of a tower value. -/
def level : SchemeNumber → Nat
  | basic b => b.level
  | complex _ _ => 4

end SchemeNumber

/-- SchemeInteger.build (line 3341): BigInt conversion; the shared
EXACT_ZERO constant is representationally just the integer zero. -/
def SchemeInteger.build (v : Int) : BasicNumber := .int v

/-- SchemeRational.simplify (lines 3412-3432), faithfully including
its quirks: the gcd is taken of the signed inputs (so the divisor can
be negative), the denominator-one test happens before the division by
the gcd, and only the final quotients divide by the gcd. -/
def SchemeRational.simplify (numerator denominator : Int) (force : Bool) :
    BasicNumber :=
  let divisor := jsGcd numerator denominator
  let numeratorSign : Int := if numerator < 0 then -1 else 1
  let denominatorSign : Int := if denominator < 0 then -1 else 1
  let sign := numeratorSign * denominatorSign
  let numerator := numerator * numeratorSign
  let denominator := denominator * denominatorSign
  if denominator = 1 ∧ ¬force then
    SchemeInteger.build (sign * numerator)
  else
    .rat ((sign * numerator).tdiv divisor) (denominator.tdiv divisor)

/-- SchemeRational.build (line 3409). -/
def SchemeRational.build (numerator denominator : Int) (force : Bool) :
    BasicNumber :=
  SchemeRational.simplify numerator denominator force

/-- SchemeInteger.coerce (lines 3387-3395): saturate outside the safe
integer range, otherwise the exact value (Number(bigint) is exact in
this range). -/
def SchemeInteger.coerce (v : Int) : JSNum :=
  if maxSafeInteger < v then .inf
  else if v < -maxSafeInteger then .negInf
  else .finite (QV.ofInt v)

/-- The halving loop of SchemeRational.coerce (lines 3489-3493): both
values are divided by two until both are at most MAX_SAFE_INTEGER.
Each round strictly shrinks a value larger than one, so the fuel
charged by the wrapper always suffices. -/
def ratCoerceLoop : Nat → Int → Int → Int × Int
  | 0, remainder, den => (remainder, den)
  | fuel + 1, remainder, den =>
    if maxSafeInteger < remainder ∨ maxSafeInteger < den then
      ratCoerceLoop fuel (remainder.tdiv 2) (den.tdiv 2)
    else (remainder, den)

/-- SchemeRational.coerce (lines 3478-3499).  Number(bigint) and the
final double division are modelled exactly. -/
def SchemeRational.coerce (numerator denominator : Int) : JSNum :=
  let workingNumerator := if numerator < 0 then -numerator else numerator
  let wholePart := workingNumerator.tdiv denominator
  if QV.lt jsMaxValue (QV.ofInt wholePart) then
    if numerator < 0 then .negInf else .inf
  else
    let remainder := workingNumerator.tmod denominator
    let p := ratCoerceLoop (remainder.natAbs + denominator.natAbs + 1)
      remainder denominator
    let remainderPart : QV := QV.make p.1 p.2
    if numerator < 0 then .finite (QV.neg (QV.add (QV.ofInt wholePart) remainderPart))
    else .finite (QV.add (QV.ofInt wholePart) remainderPart)

/-- SchemeReal.build (lines 3509-3526): the special constants are
already canonical in JSNum, so build is the identity. -/
def SchemeReal.build (v : JSNum) : JSNum := v

/-- SchemeComplex.build with the force flag set (line 3585): the
atomic_equals demotion test is short-circuited away. -/
def SchemeComplex.buildForce (re im : BasicNumber) : SchemeNumber :=
  .complex re im

/-- promote (each class, lines 3348-3358, 3439-3449, 3531-3540,
3599-3606).  Targets outside the switch raise the demotion errors of
the respective classes; SchemeInteger.promote has a case for every
target the machine can pass. -/
def SchemeNumber.promote : SchemeNumber → Nat → Except String SchemeNumber
  | .basic (.int v), 1 => .ok (.basic (.int v))
  | .basic (.int v), 2 => .ok (.basic (SchemeRational.build v 1 true))
  | .basic (.int v), 3 => .ok (.basic (.real (SchemeReal.build (SchemeInteger.coerce v))))
  | .basic (.int v), 4 => .ok (SchemeComplex.buildForce (.int v) (.int 0))
  | .basic (.int v), _ => .ok (.basic (.int v))
  | .basic (.rat n d), 2 => .ok (.basic (.rat n d))
  | .basic (.rat n d), 3 => .ok (.basic (.real (SchemeReal.build (SchemeRational.coerce n d))))
  | .basic (.rat n d), 4 => .ok (SchemeComplex.buildForce (.rat n d) (.int 0))
  | .basic (.rat _ _), _ => .error "Unable to demote rational"
  | .basic (.real v), 3 => .ok (.basic (.real v))
  | .basic (.real v), 4 => .ok (SchemeComplex.buildForce (.real v) (.int 0))
  | .basic (.real _), _ => .error "Unable to demote real"
  | .complex re im, 4 => .ok (.complex re im)
  | .complex _ _, _ => .error "Unable to demote complex"

/-- equalify (lines 3698-3706). -/
def equalify (a b : SchemeNumber) :
    Except String (SchemeNumber × SchemeNumber) :=
  if b.level < a.level then do
    let b' ← b.promote a.level
    pure (a, b')
  else if a.level < b.level then do
    let a' ← a.promote b.level
    pure (a', b)
  else pure (a, b)

/-- The per-class equals methods after equalification, for basic
values (lines 3360-3362, 3451-3455, 3541-3543).  A constructor
mismatch fails the instanceof test. -/
def BasicNumber.equalsSame : BasicNumber → BasicNumber → Bool
  | .int v, .int w => v = w
  | .rat n d, .rat n' d' => n = n' ∧ d = d'
  | .real v, .real w => JSNum.jsEq v w
  | _, _ => false

/-- atomic_equals restricted to basic values (lines 3710-3714);
equalify of two basic values promotes at most to the real level and
never raises. -/
def BasicNumber.atomicEquals (a b : BasicNumber) : Bool :=
  match equalify (.basic a) (.basic b) with
  | .ok (.basic x, .basic y) => BasicNumber.equalsSame x y
  | _ => false

/-- SchemeComplex.build without the force flag (lines 3585-3598):
demote to the real part when the imaginary part equals exact zero. -/
def SchemeComplex.build (re im : BasicNumber) : SchemeNumber :=
  if BasicNumber.atomicEquals im (.int 0) then .basic re
  else .complex re im

/-- simplify on a basic value (lines 3680-3689): a rational whose
stored denominator is one becomes an integer (note: the stored
denominator, with no further reduction). -/
def BasicNumber.simplify : BasicNumber → BasicNumber
  | .int v => .int v
  | .rat n d => if d = 1 then SchemeInteger.build n else .rat n d
  | .real v => .real v

/-- simplify (lines 3680-3694). -/
def SchemeNumber.simplify : SchemeNumber → SchemeNumber
  | .basic b => .basic b.simplify
  | .complex re im => SchemeComplex.build re.simplify im.simplify

/-- The per-class add methods on equalified basic values
(lines 3378-3380, 3468-3472, 3557-3559); a level mismatch cannot be
reached after equalify and is mapped to the first operand. -/
def BasicNumber.addSame : BasicNumber → BasicNumber → BasicNumber
  | .int v, .int w => SchemeInteger.build (v + w)
  | .rat n d, .rat n' d' => SchemeRational.build (n * d' + n' * d) (d * d') false
  | .real v, .real w => .real (SchemeReal.build (JSNum.add v w))
  | a, _ => a

/-- The per-class multiply methods on equalified basic values
(lines 3381-3383, 3473-3477, 3560-3562). -/
def BasicNumber.mulSame : BasicNumber → BasicNumber → BasicNumber
  | .int v, .int w => SchemeInteger.build (v * w)
  | .rat n d, .rat n' d' => SchemeRational.build (n * n') (d * d') false
  | .real v, .real w => .real (SchemeReal.build (JSNum.mul v w))
  | a, _ => a

/-- negate on a basic value (lines 3366-3371, 3459-3461, 3547-3549). -/
def BasicNumber.negate : BasicNumber → BasicNumber
  | .int v => if v = 0 then .int 0 else SchemeInteger.build (-v)
  | .rat n d => SchemeRational.build (-n) d false
  | .real v => .real (SchemeReal.build (JSNum.neg v))

/-- atomic_add restricted to basic operands (lines 3720-3724): the
complex case of the general function applies exactly this to the real
and imaginary parts. -/
def BasicNumber.atomicAdd (a b : BasicNumber) : BasicNumber :=
  match equalify (.basic a) (.basic b) with
  | .ok (.basic x, .basic y) => (BasicNumber.addSame x y).simplify
  | _ => a

/-- atomic_multiply restricted to basic operands (lines 3725-3729). -/
def BasicNumber.atomicMul (a b : BasicNumber) : BasicNumber :=
  match equalify (.basic a) (.basic b) with
  | .ok (.basic x, .basic y) => (BasicNumber.mulSame x y).simplify
  | _ => a

/-- atomic_subtract restricted to basic operands (lines 3730-3732). -/
def BasicNumber.atomicSub (a b : BasicNumber) : BasicNumber :=
  BasicNumber.atomicAdd a b.negate

/-- The per-class add methods on equalified values, including
SchemeComplex.add (lines 3624-3626), which adds the parts with
atomic_add and rebuilds without force. -/
def SchemeNumber.addSame : SchemeNumber → SchemeNumber → SchemeNumber
  | .basic a, .basic b => .basic (BasicNumber.addSame a b)
  | .complex r i, .complex r' i' =>
    SchemeComplex.build (BasicNumber.atomicAdd r r') (BasicNumber.atomicAdd i i')
  | a, _ => a

/-- The per-class multiply methods on equalified values, including
SchemeComplex.multiply (lines 3627-3632). -/
def SchemeNumber.mulSame : SchemeNumber → SchemeNumber → SchemeNumber
  | .basic a, .basic b => .basic (BasicNumber.mulSame a b)
  | .complex r i, .complex r' i' =>
    SchemeComplex.build
      (BasicNumber.atomicSub (BasicNumber.atomicMul r r') (BasicNumber.atomicMul i i'))
      (BasicNumber.atomicAdd (BasicNumber.atomicMul r i') (BasicNumber.atomicMul i r'))
  | a, _ => a

/-- atomic_add (lines 3720-3724): equalify, dispatch to the level add,
then simplify. -/
def atomic_add (a b : SchemeNumber) : Except String SchemeNumber := do
  let p ← equalify a b
  pure (SchemeNumber.addSame p.1 p.2).simplify

/-- atomic_multiply (lines 3725-3729). -/
def atomic_multiply (a b : SchemeNumber) : Except String SchemeNumber := do
  let p ← equalify a b
  pure (SchemeNumber.mulSame p.1 p.2).simplify

/-! ### Integer lexeme classifier and decimal printing (C7)

isInteger (lines 3147-3157) matches the regex with an optional sign
and one or more digits; match[0] is the whole lexeme.  BigInt
construction and BigInt.prototype.toString are modelled below as the
canonical value and its canonical decimal numeral. -/

/-- The \d test of the isInteger regex. -/
def isDigitChar (c : Char) : Bool := 48 ≤ c.toNat ∧ c.toNat ≤ 57

/-- The digit run of a lexeme after an optional sign. -/
def integerLexemeDigits (cs : List Char) : List Char :=
  match cs with
  | c :: rest => if c = '+' ∨ c = '-' then rest else cs
  | [] => []

/-- The regex of isInteger: an optional sign then one or more digits. -/
def isIntegerLexeme (cs : List Char) : Bool :=
  decide (integerLexemeDigits cs ≠ []) &&
    (integerLexemeDigits cs).all isDigitChar

/-- isInteger (lines 3147-3157): a successful match keeps the whole
lexeme as its value. -/
def isInteger (s : String) : Option String :=
  if isIntegerLexeme s.data then some s else none

/-- The numeric value of a digit character. -/
def charVal (c : Char) : Nat := c.toNat - 48

/-- The value of a big-endian digit run. -/
def valDigits (cs : List Char) : Nat :=
  cs.foldl (fun a c => 10 * a + charVal c) 0

/-- BigInt applied to an isInteger match value: sign times the value
of the digits (BigInt canonicalizes, dropping leading zeros, the
leading plus, and the sign of zero). -/
def jsBigInt (s : String) : Int :=
  match s.data with
  | [] => 0
  | c :: rest =>
    if c = '+' then (valDigits rest : Int)
    else if c = '-' then -(valDigits rest : Int)
    else (valDigits (c :: rest) : Int)

/-- The character of a digit value. -/
def digitChar (d : Nat) : Char := Char.ofNat (d + 48)

/-- Little-endian base-ten digits with fuel; fuel n suffices for
value n since the value shrinks by a factor of ten each round. -/
def digitsRevAux : Nat → Nat → List Nat
  | 0, _ => []
  | fuel + 1, n => if n = 0 then [] else n % 10 :: digitsRevAux fuel (n / 10)

/-- BigInt.prototype.toString for a nonnegative value: the canonical
decimal numeral. -/
def natToString (n : Nat) : String :=
  if n = 0 then "0" else String.mk (((digitsRevAux n n).reverse).map digitChar)

/-- BigInt.prototype.toString (also SchemeInteger.toString,
lines 3396-3398). -/
def intToString (v : Int) : String :=
  if v < 0 then "-" ++ natToString v.natAbs else natToString v.natAbs

/-- A lexeme printed back by toString: the leading plus is dropped
(the source keeps no lexeme, only the BigInt value). -/
def dropLeadingPlus (s : String) : String :=
  match s.data with
  | [] => s
  | c :: rest => if c = '+' then String.mk rest else s

/-- An integer lexeme already in canonical form: no redundant leading
zero and not a negative zero.  (A leading plus is allowed; toString
drops it.) -/
def canonicalIntegerLexeme (cs : List Char) : Bool :=
  match integerLexemeDigits cs with
  | [] => false
  | d :: rest =>
    (decide (rest = []) || decide (d ≠ '0')) &&
      !(decide (cs.head? = some '-') && decide (d :: rest = ['0']))

/-- The value of a little-endian digit list (the reasoning-side
companion of valDigits and digitsRevAux). -/
def vN : List Nat → Nat
  | [] => 0
  | d :: l => d + 10 * vN l

/-! ### CSE machine: syntax

The AST node kinds consumed by the simple evaluator (Atomic and
Extended namespaces, lines 113-807), without source locations. -/

inductive Expr where
  | numericLiteral (value : String)
  | complexLiteral (value : String)
  | booleanLiteral (value : Bool)
  | stringLiteral (value : String)
  | symbolLit (value : String)
  | nilE
  | identifier (name : String)
  | definition (name : String) (value : Expr)
  | reassignment (name : String) (value : Expr)
  | application (operator : Expr) (operands : List Expr)
  | conditional (test consequent alternate : Expr)
  | lambdaE (body : Expr) (params : List String)
  | pairE (car cdr : Expr)
  | listE (elements : List Expr)
  | vectorE (elements : List Expr)
  | beginE (expressions : List Expr)
  | letE (identifiers : List String) (values : List Expr) (body : Expr)
  | condE (predicates : List Expr) (consequents : List Expr)
      (catchall : Option Expr)
  | delayE (expression : Expr)

/-- Runtime values (the tagged objects pushed on the Stash).  Closure
environments are arena handles (indices into the frame store).  undef
models the JavaScript undefined that cons can store when invoked with
missing arguments. -/
inductive Value where
  | number (value : QV)
  | complexV (re im : QV)
  | booleanV (value : Bool)
  | stringV (value : String)
  | symbolV (value : String)
  | nilV
  | pairV (car cdr : Value)
  | listV (elements : List Value)
  | vectorV (elements : List Value)
  | closure (params : List String) (body : List Expr) (env : Nat)
  | primitive (name : String)
  | voidV
  | errorV (message : String)
  | undef

/-- The type tag of a value (the .type field). -/
def Value.typeName : Value → String
  | .number _ => "number"
  | .complexV _ _ => "complex"
  | .booleanV _ => "boolean"
  | .stringV _ => "string"
  | .symbolV _ => "symbol"
  | .nilV => "nil"
  | .pairV _ _ => "pair"
  | .listV _ => "list"
  | .vectorV _ => "vector"
  | .closure _ _ _ => "closure"
  | .primitive _ => "primitive"
  | .voidV => "void"
  | .errorV _ => "error"
  | .undef => "undefined"

/-- JS falsiness of a popped stash entry: every runtime value is an
object and therefore truthy; only a stored undefined (which cons can
produce when invoked with missing arguments) is falsy.  The guards
if (!test), if (!value), if (!operator), if (!car || !cdr) in
evaluateInstruction fire exactly on these. -/
def Value.isUndef : Value → Bool
  | .undef => true
  | _ => false

/-- Machine instructions (instrCreator, lines 1444-1529), keeping the
fields the executing code reads. -/
inductive Instr where
  | defineI (name : String)
  | setI (name : String)
  | appI (numOfArgs : Nat)
  | branchI (consequent : Expr) (alternate : Expr)
  | pairI
  | listI (numElements : Nat)
  | vectorI (numElements : Nat)
  | beginI (expressions : List Expr)
  | letIn (identifiers : List String) (numValues : Nat) (body : Expr)
  | condI (predicates : List Expr) (consequents : List Expr)
      (catchall : Option Expr)
  | delayI (expression : Expr)

/-- An item on the Control stack: an AST node, a statement sequence
wrapper, or an instruction. -/
inductive ControlItem where
  | expr (e : Expr)
  | seq (body : List Expr)
  | instr (i : Instr)

/-! ### CSE machine: environments

Environments (createEnvironment, lines 1340-1391) are mutable frames
with parent links; the embedding stores them in an arena indexed by
handle, as the frames are shared and mutated in place. -/

/-- One environment frame. -/
structure Frame where
  bindings : List (String × Value)
  parent : Option Nat

/-- Map.set semantics on an association list: replace the first
occurrence or append. -/
def bindingsSet : List (String × Value) → String → Value →
    List (String × Value)
  | [], k, v => [(k, v)]
  | (k', v') :: rest, k, v =>
    if k' = k then (k', v) :: rest else (k', v') :: bindingsSet rest k v

/-- Map.get semantics on an association list. -/
def bindingsGet : List (String × Value) → String → Option Value
  | [], _ => none
  | (k', v') :: rest, k => if k' = k then some v' else bindingsGet rest k

/-- Environment.get (lines 1345-1353), walking the parent chain.  The
fuel, charged with the store size by the wrapper, bounds the chain
length; running out (possible only for a cyclic store, which the
machine never builds) reports the same unbound-variable error. -/
def envGetAux (store : List Frame) (name : String) : Nat → Nat →
    Except String Value
  | 0, _ => .error ("Undefined variable: " ++ name)
  | fuel + 1, ref =>
    match store[ref]? with
    | none => .error ("Undefined variable: " ++ name)
    | some fr =>
      match bindingsGet fr.bindings name with
      | some v => .ok v
      | none =>
        match fr.parent with
        | some p => envGetAux store name fuel p
        | none => .error ("Undefined variable: " ++ name)

/-- Environment.get. -/
def envGet (store : List Frame) (ref : Nat) (name : String) :
    Except String Value :=
  envGetAux store name (store.length + 1) ref

/-- Environment.set (lines 1354-1364): mutate the frame holding the
binding, else the unbound-set error. -/
def envSetAux (name : String) (v : Value) : Nat → Nat → List Frame →
    Except String (List Frame)
  | 0, _, _ => .error ("Cannot set undefined variable: " ++ name)
  | fuel + 1, ref, store =>
    match store[ref]? with
    | none => .error ("Cannot set undefined variable: " ++ name)
    | some fr =>
      match bindingsGet fr.bindings name with
      | some _ =>
        .ok (store.set ref ⟨bindingsSet fr.bindings name v, fr.parent⟩)
      | none =>
        match fr.parent with
        | some p => envSetAux name v fuel p store
        | none => .error ("Cannot set undefined variable: " ++ name)

/-- Environment.set. -/
def envSet (store : List Frame) (ref : Nat) (name : String) (v : Value) :
    Except String (List Frame) :=
  envSetAux name v (store.length + 1) ref store

/-- Environment.define (lines 1365-1367): set in the own frame. -/
def envDefine (store : List Frame) (ref : Nat) (name : String) (v : Value) :
    List Frame :=
  match store[ref]? with
  | some fr => store.set ref ⟨bindingsSet fr.bindings name v, fr.parent⟩
  | none => store

/-- The parameter-binding loop shared by closure application
(lines 2033-2035) and LET (lines 2125-2127): each parameter in order
is bound to the matching argument, or to nil when arguments run out. -/
def bindParams : List (String × Value) → List String → List Value →
    List (String × Value)
  | acc, [], _ => acc
  | acc, p :: ps, [] => bindParams (bindingsSet acc p .nilV) ps []
  | acc, p :: ps, a :: as' => bindParams (bindingsSet acc p a) ps as'

/-! ### CSE machine: number parsing helpers

parseFloat and Number() are JS builtins; they are modelled exactly on
the decimal shapes the simple tokenizer can emit, with the value kept
as an exact rational. -/

/-- Splits the leading digit run. -/
def spanDigits (cs : List Char) : List Char × List Char :=
  (cs.takeWhile Char.isDigit, cs.dropWhile Char.isDigit)

/-- The value of an exponent suffix for parseFloat: an optional sign
then digits; a malformed exponent is ignored (value zero). -/
def parseFloatExponent (cs : List Char) : Int :=
  match cs with
  | '+' :: r => if (spanDigits r).1 = [] then 0 else (valDigits (spanDigits r).1 : Int)
  | '-' :: r => if (spanDigits r).1 = [] then 0 else -(valDigits (spanDigits r).1 : Int)
  | r => if (spanDigits r).1 = [] then 0 else (valDigits (spanDigits r).1 : Int)

/-- The value of digits, fraction digits and decimal exponent as an
exact rational. -/
def decimalValue (ip fp : List Char) (e : Int) : QV :=
  QV.mul
    (QV.make ((valDigits ip : Int) * intPow10 fp.length + (valDigits fp : Int))
      (intPow10 fp.length))
    (QV.pow10 e)

/-- parseFloat on a numeric-literal lexeme: optional sign, digits,
optional fraction, optional exponent, ignoring any trailing
characters.  A lexeme with no digits at all would be NaN in JS; the
simple tokenizer never emits one (NUMBER lexemes start with a digit or
a sign followed by a digit), and the model returns zero there. -/
def jsParseFloat (s : String) : QV :=
  let (isNeg, cs) : Bool × List Char :=
    match s.data with
    | '+' :: r => (false, r)
    | '-' :: r => (true, r)
    | r => (false, r)
  let (ip, r1) := spanDigits cs
  let (fp, r2) : List Char × List Char :=
    match r1 with
    | '.' :: r => spanDigits r
    | _ => ([], r1)
  if ip = [] ∧ fp = [] then QV.zero
  else
    let e : Int :=
      match r2 with
      | 'e' :: r => parseFloatExponent r
      | 'E' :: r => parseFloatExponent r
      | _ => 0
    let v := decimalValue ip fp e
    if isNeg then QV.neg v else v

/-- Number() on a full string, for the shapes reachable through
SchemeComplexNumber.fromString: the whole string must be an optionally
signed decimal with optional fraction and optional well-formed
exponent; anything else is NaN (none). -/
def jsNumberStrict (s : String) : Option QV :=
  let (isNeg, cs) : Bool × List Char :=
    match s.data with
    | '+' :: r => (false, r)
    | '-' :: r => (true, r)
    | r => (false, r)
  let (ip, r1) := spanDigits cs
  let (fp, r2) : List Char × List Char :=
    match r1 with
    | '.' :: r => spanDigits r
    | _ => ([], r1)
  if ip = [] ∧ fp = [] then none
  else
    let finish : Int → Option QV := fun e =>
      let v := decimalValue ip fp e
      some (if isNeg then QV.neg v else v)
    match r2 with
    | [] => finish 0
    | 'e' :: r =>
      match r with
      | '+' :: d => if (spanDigits d).2 = [] ∧ (spanDigits d).1 ≠ [] then
          finish (valDigits (spanDigits d).1 : Int) else none
      | '-' :: d => if (spanDigits d).2 = [] ∧ (spanDigits d).1 ≠ [] then
          finish (-(valDigits (spanDigits d).1 : Int)) else none
      | d => if (spanDigits d).2 = [] ∧ (spanDigits d).1 ≠ [] then
          finish (valDigits (spanDigits d).1 : Int) else none
    | 'E' :: r =>
      match r with
      | '+' :: d => if (spanDigits d).2 = [] ∧ (spanDigits d).1 ≠ [] then
          finish (valDigits (spanDigits d).1 : Int) else none
      | '-' :: d => if (spanDigits d).2 = [] ∧ (spanDigits d).1 ≠ [] then
          finish (-(valDigits (spanDigits d).1 : Int)) else none
      | d => if (spanDigits d).2 = [] ∧ (spanDigits d).1 ≠ [] then
          finish (valDigits (spanDigits d).1 : Int) else none
    | _ => none

/-- One signed-number group of the fromString regex (line 1566):
optional/mandatory sign, digits, optional fraction, optional
exponent.  Returns the value and the remaining characters. -/
def parseSignedGroup (requireSign : Bool) (cs : List Char) :
    Option (QV × List Char) :=
  let signRes : Option (Bool × List Char) :=
    match cs with
    | '+' :: r => some (false, r)
    | '-' :: r => some (true, r)
    | r => if requireSign then none else some (false, r)
  match signRes with
  | none => none
  | some (isNeg, r0) =>
    let (ip, r1) := spanDigits r0
    if ip = [] then none
    else
      let (fp, r2) : List Char × List Char :=
        match r1 with
        | '.' :: r => if (spanDigits r).1 = [] then ([], r1) else spanDigits r
        | _ => ([], r1)
      let finish : Int → List Char → Option (QV × List Char) := fun e rest =>
        let v := decimalValue ip fp e
        some (if isNeg then QV.neg v else v, rest)
      match r2 with
      | 'e' :: '+' :: d =>
        if (spanDigits d).1 = [] then finish 0 r2
        else finish (valDigits (spanDigits d).1 : Int) (spanDigits d).2
      | 'e' :: '-' :: d =>
        if (spanDigits d).1 = [] then finish 0 r2
        else finish (-(valDigits (spanDigits d).1 : Int)) (spanDigits d).2
      | 'e' :: d =>
        if (spanDigits d).1 = [] then finish 0 r2
        else finish (valDigits (spanDigits d).1 : Int) (spanDigits d).2
      | 'E' :: '+' :: d =>
        if (spanDigits d).1 = [] then finish 0 r2
        else finish (valDigits (spanDigits d).1 : Int) (spanDigits d).2
      | 'E' :: '-' :: d =>
        if (spanDigits d).1 = [] then finish 0 r2
        else finish (-(valDigits (spanDigits d).1 : Int)) (spanDigits d).2
      | 'E' :: d =>
        if (spanDigits d).1 = [] then finish 0 r2
        else finish (valDigits (spanDigits d).1 : Int) (spanDigits d).2
      | _ => finish 0 r2

/-- SchemeComplexNumber.fromString (lines 1541-1574).  No claim
exercises complex literals; the regex of line 1566 is modelled by two
signed groups consuming the whole numeric part. -/
def complexFromString (s : String) : Except String (QV × QV) :=
  let cs := s.data
  if ¬ cs.any (fun c => c = 'i' ∨ c = 'I') then
    match jsNumberStrict s with
    | some v => .ok (v, QV.zero)
    | none => .error ("Invalid complex string: " ++ s)
  else if cs.getLast? = some 'i' ∨ cs.getLast? = some 'I' then
    let numericPart := cs.dropLast
    if numericPart = [] ∨ numericPart = ['+'] then .ok (QV.zero, QV.one)
    else if numericPart = ['-'] then .ok (QV.zero, QV.neg QV.one)
    else
      match jsNumberStrict (String.mk numericPart) with
      | some v => .ok (QV.zero, v)
      | none =>
        match parseSignedGroup false numericPart with
        | some (re, rest) =>
          match parseSignedGroup true rest with
          | some (im, []) => .ok (re, im)
          | _ => .error ("Invalid complex string: " ++ s)
        | none => .error ("Invalid complex string: " ++ s)
  else .error ("Invalid complex string: " ++ s)

/-! ### CSE machine: primitive procedures (lines 1673-1824) -/

/-- isNumericValue (lines 1652-1654). -/
def isNumericValue : Value → Bool
  | .number _ => true
  | .complexV _ _ => true
  | _ => false

/-- toComplexNumber (lines 1655-1665) on numeric values. -/
def toComplexQ : Value → QV × QV
  | .number v => (v, QV.zero)
  | .complexV re im => (re, im)
  | _ => (QV.zero, QV.zero)

/-- complexValueToResult (lines 1666-1672). -/
def complexValueToResult (c : QV × QV) : Value :=
  if c.2.num = 0 then .number c.1 else .complexV c.1 c.2

/-- SchemeComplexNumber.add (exact on the modelled rationals). -/
def cAdd (a b : QV × QV) : QV × QV := (QV.add a.1 b.1, QV.add a.2 b.2)

/-- SchemeComplexNumber.sub. -/
def cSub (a b : QV × QV) : QV × QV := (QV.sub a.1 b.1, QV.sub a.2 b.2)

/-- SchemeComplexNumber.mul. -/
def cMul (a b : QV × QV) : QV × QV :=
  (QV.sub (QV.mul a.1 b.1) (QV.mul a.2 b.2),
   QV.add (QV.mul a.1 b.2) (QV.mul a.2 b.1))

/-- SchemeComplexNumber.neg. -/
def cNeg (a : QV × QV) : QV × QV := (QV.neg a.1, QV.neg a.2)

/-- SchemeComplexNumber.div (lines 1602-1611), raising the
division-by-zero condition of the source. -/
def cDiv (a b : QV × QV) : Except String (QV × QV) :=
  let denom := QV.add (QV.mul b.1 b.1) (QV.mul b.2 b.2)
  if denom.num = 0 then .error "Division by zero"
  else .ok (QV.div (QV.add (QV.mul a.1 b.1) (QV.mul a.2 b.2)) denom,
            QV.div (QV.sub (QV.mul a.2 b.1) (QV.mul a.1 b.2)) denom)

/-- The modelled host TypeError raised when a fixed-arity primitive
dereferences a missing argument. -/
def jsTypeError : String := "Cannot read properties of undefined (reading 'type')"

/-- The primitive table (lines 1673-1824).  A raised condition is an
Except error; the application instruction converts it to an in-band
error value. -/
def applyPrimitive (name : String) (args : List Value) : Except String Value :=
  match name with
  | "+" =>
    if args.isEmpty then .ok (.number QV.zero)
    else if ¬ args.all isNumericValue then .error "+ requires numeric arguments"
    else .ok (complexValueToResult ((args.map toComplexQ).foldl cAdd (QV.zero, QV.zero)))
  | "*" =>
    if args.isEmpty then .ok (.number QV.one)
    else if ¬ args.all isNumericValue then .error "* requires numeric arguments"
    else .ok (complexValueToResult ((args.map toComplexQ).foldl cMul (QV.one, QV.zero)))
  | "-" =>
    match args with
    | [] => .error "Subtraction requires at least one argument"
    | a :: rest =>
      if ¬ (a :: rest).all isNumericValue then .error "- requires numeric arguments"
      else if rest.isEmpty then .ok (complexValueToResult (cNeg (toComplexQ a)))
      else .ok (complexValueToResult ((rest.map toComplexQ).foldl cSub (toComplexQ a)))
  | "/" =>
    match args with
    | [] => .error "Division requires at least one argument"
    | a :: rest =>
      if ¬ (a :: rest).all isNumericValue then .error "/ requires numeric arguments"
      else if rest.isEmpty then do
        let r ← cDiv (QV.one, QV.zero) (toComplexQ a)
        .ok (complexValueToResult r)
      else do
        let r ← (rest.map toComplexQ).foldlM cDiv (toComplexQ a)
        .ok (complexValueToResult r)
  | "=" =>
    match args with
    | a :: b :: _ =>
      if a.typeName ≠ b.typeName then .ok (.booleanV false)
      else
        match a, b with
        | .number x, .number y => .ok (.booleanV (x = y))
        | .stringV x, .stringV y => .ok (.booleanV (x = y))
        | .booleanV x, .booleanV y => .ok (.booleanV (x = y))
        | _, _ => .ok (.booleanV false)
    | _ => .error jsTypeError
  | ">" =>
    match args with
    | .number x :: .number y :: _ => .ok (.booleanV (QV.lt y x))
    | _ :: _ :: _ => .error "> requires numbers"
    | _ => .error jsTypeError
  | "<" =>
    match args with
    | .number x :: .number y :: _ => .ok (.booleanV (QV.lt x y))
    | _ :: _ :: _ => .error "< requires numbers"
    | _ => .error jsTypeError
  | ">=" =>
    match args with
    | .number x :: .number y :: _ => .ok (.booleanV (QV.le y x))
    | _ :: _ :: _ => .error ">= requires numbers"
    | _ => .error jsTypeError
  | "<=" =>
    match args with
    | .number x :: .number y :: _ => .ok (.booleanV (QV.le x y))
    | _ :: _ :: _ => .error "<= requires numbers"
    | _ => .error jsTypeError
  | "not" =>
    match args with
    | .booleanV b :: _ => .ok (.booleanV (!b))
    | _ :: _ => .ok (.booleanV false)
    | [] => .error jsTypeError
  | "and" =>
    .ok (.booleanV (¬ args.any (fun a =>
      match a with
      | .booleanV false => true
      | _ => false)))
  | "or" =>
    .ok (.booleanV (args.any (fun a =>
      match a with
      | .booleanV true => true
      | _ => false)))
  | "cons" =>
    match args with
    | a :: b :: _ => .ok (.pairV a b)
    | [a] => .ok (.pairV a .undef)
    | [] => .ok (.pairV .undef .undef)
  | "car" =>
    match args with
    | .pairV car _ :: _ => .ok car
    | _ :: _ => .error "car requires a pair"
    | [] => .error jsTypeError
  | "cdr" =>
    match args with
    | .pairV _ cdr :: _ => .ok cdr
    | _ :: _ => .error "cdr requires a pair"
    | [] => .error jsTypeError
  | "list" => .ok (.listV args)
  | "null?" =>
    match args with
    | v :: _ => .ok (.booleanV (v.typeName = "nil"))
    | [] => .error jsTypeError
  | "pair?" =>
    match args with
    | v :: _ => .ok (.booleanV (v.typeName = "pair"))
    | [] => .error jsTypeError
  | "list?" =>
    match args with
    | v :: _ => .ok (.booleanV (v.typeName = "list"))
    | [] => .error jsTypeError
  | "number?" =>
    match args with
    | v :: _ => .ok (.booleanV (v.typeName = "number"))
    | [] => .error jsTypeError
  | "string?" =>
    match args with
    | v :: _ => .ok (.booleanV (v.typeName = "string"))
    | [] => .error jsTypeError
  | "boolean?" =>
    match args with
    | v :: _ => .ok (.booleanV (v.typeName = "boolean"))
    | [] => .error jsTypeError
  | "symbol?" =>
    match args with
    | v :: _ => .ok (.booleanV (v.typeName = "symbol"))
    | [] => .error jsTypeError
  | _ => .error ("Unknown primitive: " ++ name)

/-- The names of the primitive table, in object-literal order. -/
def primitiveNames : List String :=
  ["+", "*", "-", "/", "=", ">", "<", ">=", "<=", "not", "and", "or",
   "cons", "car", "cdr", "list", "null?", "pair?", "list?", "number?",
   "string?", "boolean?", "symbol?"]

/-! ### CSE machine: state and dispatch (lines 1826-2163) -/

/-- The machine state: Control and Stash (top first), the current
environment handle, and the frame store. -/
structure MachineState where
  control : List ControlItem
  stash : List Value
  env : Nat
  store : List Frame

/-- The truthiness test of the BRANCH instruction (line 2059):
test.type === 'boolean' && test.value. -/
def jsBranchTrue : Value → Bool
  | .booleanV b => b
  | _ => false

/-- The interleaved Control items pushed while decomposing a Cond node
(lines 1980-1988): predicates and consequents are pushed from the last
pair to the first, the consequent above its predicate. -/
def condDecomposeItems : List Expr → List Expr → List ControlItem
  | p :: ps, c :: cs => .expr c :: .expr p :: condDecomposeItems ps cs
  | _, _ => []

/-- The Control items pushed by the COND instruction
(lines 2145-2156): first pair first, so the first predicate ends at
the bottom and the catchall on top. -/
def condInstrItems (ps cs : List Expr) (catchall : Option Expr) :
    List ControlItem :=
  (match catchall with
   | some c => [ControlItem.expr c]
   | none => []) ++
    (ps.zip cs).foldl (fun acc pc => .expr pc.2 :: .expr pc.1 :: acc) []

/-- evaluateExpression (lines 1879-1998): decompose one AST node.  The
Control lists are top-first, so an item pushed last is the head. -/
def evaluateExpression (expr : Expr) (s : MachineState) :
    Except String MachineState :=
  match expr with
  | .numericLiteral v =>
    .ok { s with stash := .number (jsParseFloat v) :: s.stash }
  | .complexLiteral v =>
    match complexFromString v with
    | .ok c => .ok { s with stash := .complexV c.1 c.2 :: s.stash }
    | .error m =>
      .ok { s with stash := .errorV ("Invalid complex number: " ++ m) :: s.stash }
  | .booleanLiteral b => .ok { s with stash := .booleanV b :: s.stash }
  | .stringLiteral v => .ok { s with stash := .stringV v :: s.stash }
  | .symbolLit v => .ok { s with stash := .symbolV v :: s.stash }
  | .nilE => .ok { s with stash := .nilV :: s.stash }
  | .identifier name => do
    let v ← envGet s.store s.env name
    .ok { s with stash := v :: s.stash }
  | .definition name value =>
    .ok { s with control := (.instr (.defineI name) :: .expr value :: s.control) }
  | .reassignment name value =>
    .ok { s with control := (.instr (.setI name) :: .expr value :: s.control) }
  | .application operator operands =>
    .ok { s with control :=
      operands.map ControlItem.expr ++
        (ControlItem.expr operator :: .instr (.appI operands.length) :: s.control) }
  | .conditional test consequent alternate =>
    .ok { s with control :=
      (.instr (.branchI consequent alternate) :: .expr alternate ::
        .expr consequent :: .expr test :: s.control) }
  | .lambdaE body params =>
    .ok { s with stash := .closure params [body] s.env :: s.stash }
  | .pairE car cdr =>
    .ok { s with control := (.instr .pairI :: .expr cdr :: .expr car :: s.control) }
  | .listE elements =>
    .ok { s with control :=
      (.instr (.listI elements.length) :: (elements.map ControlItem.expr ++ s.control)) }
  | .vectorE elements =>
    .ok { s with control :=
      (.instr (.vectorI elements.length) :: (elements.map ControlItem.expr ++ s.control)) }
  | .beginE expressions =>
    .ok { s with control :=
      (.instr (.beginI expressions) :: (expressions.map ControlItem.expr ++ s.control)) }
  | .letE identifiers values body =>
    .ok { s with control :=
      (.instr (.letIn identifiers values.length body) :: (values.map ControlItem.expr ++ s.control)) }
  | .condE predicates consequents catchall =>
    .ok { s with control :=
      (ControlItem.instr (.condI predicates consequents catchall) ::
        ((match catchall with
          | some c => [ControlItem.expr c]
          | none => []) ++
          (condDecomposeItems predicates consequents ++ s.control))) }
  | .delayE expression =>
    .ok { s with control := (.instr (.delayI expression) :: .expr expression :: s.control) }

/-- evaluateInstruction (lines 1999-2163): execute one completion
instruction.  Primitive conditions are converted to in-band error
values; the listed throw statements become Except errors.  The falsy
guards on popped values (if (!test), if (!value), if (!operator),
if (!car || !cdr)) fire both on an empty Stash and on a popped stored
undefined. -/
def evaluateInstruction (instruction : Instr) (s : MachineState) :
    Except String MachineState :=
  match instruction with
  | .defineI name =>
    match s.stash with
    | [] => .error "No value to define"
    | v :: rest =>
      if v.isUndef then .error "No value to define"
      else
        .ok { s with stash := (.voidV :: rest),
                     store := envDefine s.store s.env name v }
  | .setI name =>
    match s.stash with
    | [] => .error "No value to set"
    | v :: rest =>
      if v.isUndef then .error "No value to set"
      else do
        let store' ← envSet s.store s.env name v
        .ok { s with stash := rest, store := store' }
  | .appI numOfArgs =>
    match s.stash with
    | [] => .error "No operator for application"
    | operator :: rest =>
      if operator.isUndef then .error "No operator for application"
      else
      let args := (rest.take numOfArgs).reverse
      let rest' := rest.drop numOfArgs
      match operator with
      | .closure params body envRef =>
        .ok { control := (body.reverse.map ControlItem.expr) ++ s.control,
              stash := rest',
              env := s.store.length,
              store := s.store ++ [⟨bindParams [] params args, some envRef⟩] }
      | .primitive name =>
        match applyPrimitive name args with
        | .ok v => .ok { s with stash := v :: rest' }
        | .error m => .ok { s with stash := .errorV m :: rest' }
      | op =>
        .ok { s with
          stash := (.errorV ("Cannot apply non-function: " ++ op.typeName) :: rest') }
  | .branchI consequent alternate =>
    match s.stash with
    | [] => .error "No test value for branch"
    | test :: rest =>
      if test.isUndef then .error "No test value for branch"
      else
        .ok { s with
          control := (.expr (if jsBranchTrue test then consequent else alternate) :: s.control),
          stash := rest }
  | .pairI =>
    match s.stash with
    | cdr :: car :: rest =>
      if car.isUndef || cdr.isUndef then .error "Missing car or cdr for pair"
      else .ok { s with stash := .pairV car cdr :: rest }
    | _ => .error "Missing car or cdr for pair"
  | .listI numElements =>
    .ok { s with stash :=
      (.listV (s.stash.take numElements).reverse :: s.stash.drop numElements) }
  | .vectorI numElements =>
    .ok { s with stash :=
      (.vectorV (s.stash.take numElements).reverse :: s.stash.drop numElements) }
  | .beginI expressions =>
    match expressions with
    | [] => .ok { s with stash := .nilV :: s.stash }
    | [e] => .ok { s with control := .expr e :: s.control }
    | _ => .ok { s with control := expressions.map .expr ++ s.control }
  | .letIn identifiers numValues body =>
    let values := (s.stash.take numValues).reverse
    .ok { control := .expr body :: s.control,
          stash := s.stash.drop numValues,
          env := s.store.length,
          store := s.store ++ [⟨bindParams [] identifiers values, some s.env⟩] }
  | .condI predicates consequents catchall =>
    match predicates with
    | [] =>
      match catchall with
      | some c => .ok { s with control := .expr c :: s.control }
      | none => .ok { s with stash := .nilV :: s.stash }
    | _ =>
      .ok { s with control := condInstrItems predicates consequents catchall ++ s.control }
  | .delayI _ => .error "Unsupported instruction type: Delay"

/-- evaluateControlItem (lines 1858-1872): instructions first, then
statement sequences, then AST nodes. -/
def evaluateControlItem (item : ControlItem) (s : MachineState) :
    Except String MachineState :=
  match item with
  | .instr i => evaluateInstruction i s
  | .seq body => .ok { s with control := body.map .expr ++ s.control }
  | .expr e => evaluateExpression e s

/-- The result of a bounded run: the source loop (lines 1848-1857) has
no step counter and runs until Control drains (or the cooperative
running flag is cleared externally); outOfFuel marks a run that was
cut off by the bound of the model, never by the machine itself. -/
inductive RunOutcome where
  | finished (v : Value)
  | outOfFuel (s : MachineState)

/-- The final result of the loop: stash.pop() with the falsy fallback
to nil, which fires on an empty Stash and on a stored undefined. -/
def stashResult (stash : List Value) : Value :=
  match stash.head? with
  | some v => if v.isUndef then .nilV else v
  | none => .nilV

/-- runCSEMachine (lines 1848-1857): pop and dispatch until Control is
empty, then return the top of the Stash, or nil if it is empty or
holds a stored undefined. -/
def runCSEMachine : Nat → MachineState → Except String RunOutcome
  | fuel, s =>
    match s.control with
    | [] => .ok (.finished (stashResult s.stash))
    | item :: rest =>
      match fuel with
      | 0 => .ok (.outOfFuel s)
      | f + 1 => do
        let s' ← evaluateControlItem item { s with control := rest }
        runCSEMachine f s'

/-- The program frame after evaluate (lines 1832-1835) has defined
every primitive into the fresh program environment. -/
def programFrame : Frame :=
  ⟨primitiveNames.foldl (fun acc n => bindingsSet acc n (.primitive n)) [], none⟩

/-- The machine state evaluate builds before running: the program
expressions pushed in reverse (first expression on top), fresh Stash,
the program environment holding the primitives. -/
def initialState (program : List Expr) : MachineState :=
  ⟨program.map .expr, [], 0, [programFrame]⟩

/-- evaluate (lines 1826-1847): run the machine and catch any raised
condition as an in-band error value; none marks only model fuel
exhaustion. -/
def evaluateProgram (fuel : Nat) (program : List Expr) : Option Value :=
  match runCSEMachine fuel (initialState program) with
  | .ok (.finished v) => some v
  | .ok (.outOfFuel _) => none
  | .error msg => some (.errorV msg)

/-! ### Simple tokenizer (parseSchemeSimple pipeline, lines 827-974)

Source positions are tracked in the source only for Location objects
that no claim observes; they are omitted here. -/

inductive STokenType where
  | LPAREN
  | RPAREN
  | QUOTE
  | STRING
  | NUMBER
  | COMPLEX
  | BOOLEAN
  | IDENTIFIER
  | EOF
deriving DecidableEq, Repr

/-- A token of the simple tokenizer. -/
structure SToken where
  type : STokenType
  value : String
deriving DecidableEq, Repr

/-- The /\s/ test (line 963), modelled on the ASCII whitespace the
claims can reach. -/
def isWhitespaceJS (c : Char) : Bool :=
  c = ' ' ∨ c = '\t' ∨ c = '\n' ∨ c = '\r' ∨ c.toNat = 11 ∨ c.toNat = 12

/-- The identifier-start set [a-zA-Z_+\-*/=<>!?] (line 969). -/
def isIdentifierStartJS (c : Char) : Bool :=
  c.isAlpha ∨ c = '_' ∨ c = '+' ∨ c = '-' ∨ c = '*' ∨ c = '/' ∨
    c = '=' ∨ c = '<' ∨ c = '>' ∨ c = '!' ∨ c = '?'

/-- The identifier-part set [a-zA-Z0-9_+\-*/=<>!?] (line 972). -/
def isIdentifierPartJS (c : Char) : Bool :=
  isIdentifierStartJS c ∨ c.isDigit

/-- A sign character. -/
def isSignChar (c : Char) : Bool := c = '+' ∨ c = '-'

/-- Whether the next character is a digit (isDigit(code[current+1]) at
line 894; out of range reads undefined, which is not a digit). -/
def nextIsDigit (cs : List Char) : Bool :=
  match cs.head? with
  | some d => d.isDigit
  | none => false

/-- The characters swallowed by the number scanner (line 905). -/
def isNumberPartJS (c : Char) : Bool :=
  c.isDigit ∨ c = '.' ∨ c = 'e' ∨ c = 'E' ∨ c = '+' ∨ c = '-'

/-- The string-literal scanner (lines 870-892): read until the
closing quote, a backslash making the next character literal; an
unterminated literal ends at end of input, a trailing backslash is
kept literally. -/
def readStringLit : List Char → List Char × List Char
  | [] => ([], [])
  | '"' :: rest => ([], rest)
  | '\\' :: d :: rest =>
    let (v, r) := readStringLit rest
    (d :: v, r)
  | ['\\'] => (['\\'], [])
  | c :: rest =>
    let (v, r) := readStringLit rest
    (c :: v, r)

/-- tokenize (lines 832-962).  Every iteration of the source loop
consumes at least one character, so fuel equal to the input length
plus one is never exhausted. -/
def tokenizeAux : Nat → List Char → List SToken
  | 0, _ => []
  | _ + 1, [] => []
  | fuel + 1, c :: rest =>
    if c = '(' ∨ c = '[' then
      ⟨.LPAREN, String.mk [c]⟩ :: tokenizeAux fuel rest
    else if c = ')' ∨ c = ']' then
      ⟨.RPAREN, String.mk [c]⟩ :: tokenizeAux fuel rest
    else if c = '\'' then
      ⟨.QUOTE, String.mk [c]⟩ :: tokenizeAux fuel rest
    else if isWhitespaceJS c then
      tokenizeAux fuel rest
    else if c = ';' then
      tokenizeAux fuel ((c :: rest).dropWhile (fun d => ¬ d = '\n'))
    else if c = '"' then
      let p := readStringLit rest
      ⟨.STRING, String.mk p.1⟩ :: tokenizeAux fuel p.2
    else if c.isDigit ∨ (isSignChar c ∧ nextIsDigit rest) then
      let pre : List Char := if isSignChar c then [c] else []
      let cs1 : List Char := if isSignChar c then rest else c :: rest
      let run := cs1.takeWhile isNumberPartJS
      let cs2 := cs1.dropWhile isNumberPartJS
      match cs2 with
      | i :: cs3 =>
        if i = 'i' ∨ i = 'I' then
          ⟨.COMPLEX, String.mk (pre ++ run ++ [i])⟩ :: tokenizeAux fuel cs3
        else
          ⟨.NUMBER, String.mk (pre ++ run)⟩ :: tokenizeAux fuel cs2
      | [] => [⟨.NUMBER, String.mk (pre ++ run)⟩]
    else if c = '#' then
      let run := rest.takeWhile isIdentifierPartJS
      let cs2 := rest.dropWhile isIdentifierPartJS
      let value := String.mk ('#' :: run)
      if value = "#t" ∨ value = "#true" then
        ⟨.BOOLEAN, "true"⟩ :: tokenizeAux fuel cs2
      else if value = "#f" ∨ value = "#false" then
        ⟨.BOOLEAN, "false"⟩ :: tokenizeAux fuel cs2
      else
        ⟨.IDENTIFIER, value⟩ :: tokenizeAux fuel cs2
    else if isIdentifierStartJS c then
      ⟨.IDENTIFIER, String.mk ((c :: rest).takeWhile isIdentifierPartJS)⟩ ::
        tokenizeAux fuel ((c :: rest).dropWhile isIdentifierPartJS)
    else
      tokenizeAux fuel rest

/-- tokenize: scan and append the EOF token (line 960). -/
def tokenize (code : String) : List SToken :=
  tokenizeAux (code.length + 1) code.data ++ [⟨.EOF, ""⟩]

/-! ### Simple recursive-descent parsing (SimpleSchemeParser,
lines 975-1212).  The token cursor is passed as the list of remaining
tokens; fuel bounds the recursion depth and is charged generously by
the wrapper. -/

/-- parseDefine (lines 1094-1104). -/
def parseDefine (elements : List Expr) : Except String Expr :=
  if elements.length ≠ 3 then .error "define requires exactly 2 arguments"
  else
    match elements with
    | [_, .identifier name, value] => .ok (.definition name value)
    | _ => .error "define name must be an identifier"

/-- parseLambda (lines 1105-1128): parameter lists drop non-identifier
entries silently; extra body forms beyond the first are ignored. -/
def parseLambda (elements : List Expr) : Except String Expr :=
  match elements with
  | _ :: paramsExpr :: body :: _ =>
    match paramsExpr with
    | .listE els =>
      .ok (.lambdaE body (els.filterMap (fun e =>
        match e with
        | .identifier n => some n
        | _ => none)))
    | .identifier n => .ok (.lambdaE body [n])
    | .nilE => .ok (.lambdaE body [])
    | _ => .error "lambda parameters must be identifiers"
  | _ => .error "lambda requires at least 2 arguments"

/-- parseConditional (lines 1129-1137). -/
def parseConditional (elements : List Expr) : Except String Expr :=
  match elements with
  | [_, test, consequent, alternate] =>
    .ok (.conditional test consequent alternate)
  | _ => .error "if requires exactly 3 arguments"

/-- The binding collector of parseLet (lines 1146-1157): only
two-element sub-lists with an identifier head contribute. -/
def collectLetBindings : List Expr → List String × List Expr
  | [] => ([], [])
  | b :: rest =>
    let r := collectLetBindings rest
    match b with
    | .listE [.identifier n, v] => (n :: r.1, v :: r.2)
    | _ => r

/-- parseLet (lines 1138-1159). -/
def parseLet (elements : List Expr) : Except String Expr :=
  match elements with
  | _ :: bindingsExpr :: body :: _ =>
    match bindingsExpr with
    | .listE bs =>
      let r := collectLetBindings bs
      .ok (.letE r.1 r.2 body)
    | _ => .ok (.letE [] [] body)
  | _ => .error "let requires at least 2 arguments"

/-- parseBegin (lines 1160-1163). -/
def parseBegin (elements : List Expr) : Expr :=
  .beginE (elements.drop 1)

/-- The clause walk of parseCond (lines 1164-1182): two-or-more
element list clauses contribute, an else clause (re)sets the
catchall. -/
def collectCondClauses : List Expr →
    List Expr × List Expr × Option Expr → List Expr × List Expr × Option Expr
  | [], acc => acc
  | clause :: rest, acc =>
    match clause with
    | .listE (p :: c :: _) =>
      match p with
      | .identifier n =>
        if n = "else" then collectCondClauses rest (acc.1, acc.2.1, some c)
        else collectCondClauses rest (acc.1 ++ [p], acc.2.1 ++ [c], acc.2.2)
      | _ => collectCondClauses rest (acc.1 ++ [p], acc.2.1 ++ [c], acc.2.2)
    | _ => collectCondClauses rest acc

/-- parseCond (lines 1164-1182). -/
def parseCond (elements : List Expr) : Expr :=
  let r := collectCondClauses (elements.drop 1) ([], [], none)
  .condE r.1 r.2.1 r.2.2

/-- The tail of parseList after the elements are collected
(lines 1056-1092): nil for an empty form, the six keyword forms, the
single-identifier list special case, then application. -/
def makeParsedList (elements : List Expr) : Except String Expr :=
  match elements with
  | [] => .ok .nilE
  | first :: operands =>
    match first with
    | .identifier name =>
      if name = "define" then parseDefine elements
      else if name = "lambda" then parseLambda elements
      else if name = "if" then parseConditional elements
      else if name = "let" then parseLet elements
      else if name = "begin" then .ok (parseBegin elements)
      else if name = "cond" then .ok (parseCond elements)
      else if operands.isEmpty then .ok (.listE [.identifier name])
      else .ok (.application first operands)
    | _ => .ok (.application first operands)

mutual

/-- parseExpression (lines 990-1017); unknown tokens (a stray closing
parenthesis) are consumed and yield no node, and at the EOF token the
cursor does not move. -/
def parseExpression : Nat → List SToken → Except String (Option Expr × List SToken)
  | 0, _ => .error "Parse fuel exhausted"
  | fuel + 1, ts =>
    match ts with
    | [] => .ok (none, [])
    | t :: rest =>
      match t.type with
      | .NUMBER => .ok (some (.numericLiteral t.value), rest)
      | .COMPLEX => .ok (some (.complexLiteral t.value), rest)
      | .STRING => .ok (some (.stringLiteral t.value), rest)
      | .BOOLEAN => .ok (some (.booleanLiteral (t.value = "true")), rest)
      | .IDENTIFIER => .ok (some (.identifier t.value), rest)
      | .LPAREN => do
        let p ← parseListElems fuel rest
        let ts2 :=
          match p.2 with
          | t' :: r' => if t'.type = .RPAREN then r' else p.2
          | [] => p.2
        match makeParsedList p.1 with
        | .ok e => .ok (some e, ts2)
        | .error m => .error m
      | .QUOTE => do
        let q ← parseExpression fuel rest
        match q.1 with
        | some e => .ok (some e, q.2)
        | none => .error "quote requires an expression"
      | .RPAREN => .ok (none, rest)
      | .EOF => .ok (none, ts)

/-- The element loop of parseList (lines 1047-1052). -/
def parseListElems : Nat → List SToken → Except String (List Expr × List SToken)
  | 0, _ => .error "Parse fuel exhausted"
  | fuel + 1, ts =>
    match ts with
    | [] => .ok ([], [])
    | t :: _ =>
      if t.type = .EOF ∨ t.type = .RPAREN then .ok ([], ts)
      else do
        let p ← parseExpression fuel ts
        let q ← parseListElems fuel p.2
        match p.1 with
        | some e => .ok (e :: q.1, q.2)
        | none => .ok (q.1, q.2)

end

/-- parse (lines 980-989): top-level expressions until EOF. -/
def parseAll : Nat → List SToken → Except String (List Expr)
  | 0, _ => .error "Parse fuel exhausted"
  | fuel + 1, ts =>
    match ts with
    | [] => .ok []
    | t :: _ =>
      if t.type = .EOF then .ok []
      else do
        let p ← parseExpression fuel ts
        let es ← parseAll fuel p.2
        match p.1 with
        | some e => .ok (e :: es)
        | none => .ok es

/-- parseSchemeSimple (lines 827-831).  Twice the token count plus
four rounds of fuel always cover the recursion depth: along any chain
of nested calls at least every second call consumes a token. -/
def parseSchemeSimple (code : String) : Except String (List Expr) :=
  let ts := tokenize code
  parseAll (2 * ts.length + 4) ts

/-- The full pipeline of SchemeEvaluator.evaluateChunk
(lines 2178-2199): parse, then run against a fresh program
environment holding the primitives. -/
def runScheme (fuel : Nat) (code : String) : Except String (Option Value) :=
  (parseSchemeSimple code).map (evaluateProgram fuel)

/-! ## Helper lemmas -/

/-- Every error produced by the environment lookup is the
unbound-variable message. -/
theorem envGetAux_error_msg (store : List Frame) (name : String) :
    ∀ fuel ref msg, envGetAux store name fuel ref = .error msg →
      msg = "Undefined variable: " ++ name := by
  intro fuel
  induction fuel with
  | zero =>
    intro ref msg h
    simp only [envGetAux] at h
    exact ((Except.error.injEq _ _).mp h).symm
  | succ f ih =>
    intro ref msg h
    simp only [envGetAux] at h
    split at h
    · exact ((Except.error.injEq _ _).mp h).symm
    · split at h
      · exact absurd h (by simp)
      · split at h
        · exact ih _ _ h
        · exact ((Except.error.injEq _ _).mp h).symm

/-- Every error produced by the environment mutation is the
unbound-set message. -/
theorem envSetAux_error_msg (name : String) (v : Value) :
    ∀ fuel ref store msg, envSetAux name v fuel ref store = .error msg →
      msg = "Cannot set undefined variable: " ++ name := by
  intro fuel
  induction fuel with
  | zero =>
    intro ref store msg h
    simp only [envSetAux] at h
    exact ((Except.error.injEq _ _).mp h).symm
  | succ f ih =>
    intro ref store msg h
    simp only [envSetAux] at h
    split at h
    · exact ((Except.error.injEq _ _).mp h).symm
    · split at h
      · exact absurd h (by simp)
      · split at h
        · exact ih _ _ _ h
        · exact ((Except.error.injEq _ _).mp h).symm

/-- A string longer than the step-limit message differs from it. -/
theorem append_ne_step_limit (p t : String)
    (h : 19 < p.length) : p ++ t ≠ "step limit exceeded" := by
  intro he
  have hl := congrArg String.length he
  rw [String.length_append] at hl
  have : ("step limit exceeded" : String).length = 19 := by decide
  omega

/-! ## Claim theorems -/

/-- C2: evaluating the two-expression program (define x 10) x does not
return the number 10: because the DEFINE completion instruction is
pushed above its value expression, it pops first with an empty Stash
and the machine raises, so evaluate returns the in-band error value
with message No value to define. -/
theorem C2_define_then_reference_errors :
    runScheme 100 "(define x 10) x" =
      .ok (some (.errorV "No value to define")) := rfl

/-- C6: SchemeRational.build violates the representation invariant.
At numerator 4 and denominator 2 the denominator-one test happens
before the reduction by the gcd, so the result is the rational 2 over
1 rather than the integer 2; at -1 over 2 the gcd of the signed inputs
is negative, so the result is 1 over -2, with a negative denominator
and the sign not folded into the numerator. -/
theorem C6_rational_build_invariant_broken :
    SchemeRational.build 4 2 false = .rat 2 1 ∧
    (SchemeRational.build 4 2 false).level = 2 ∧
    SchemeRational.build (-1) 2 false = .rat 1 (-2) :=
  ⟨rfl, rfl, rfl⟩

/-- C1 counterexample: decomposing the conditional (if #t 1 2) leaves
the branch completion instruction as the very next Control item while
the Stash is still empty (the test has not been evaluated), and the
full run of the program therefore raises No test value for branch
instead of evaluating the conditional. -/
theorem C1_counterexample :
    evaluateExpression
      (.conditional (.booleanLiteral true) (.numericLiteral "1") (.numericLiteral "2"))
      ⟨[], [], 0, [programFrame]⟩ =
      .ok ⟨[.instr (.branchI (.numericLiteral "1") (.numericLiteral "2")),
            .expr (.numericLiteral "2"), .expr (.numericLiteral "1"),
            .expr (.booleanLiteral true)], [], 0, [programFrame]⟩ ∧
    runScheme 100 "(if #t 1 2)" = .ok (some (.errorV "No test value for branch")) :=
  ⟨rfl, rfl⟩

/-- C1 (amended): only Application pushes its completion instruction
beneath the sub-expressions (operands in order, then the operator,
then the application instruction), so that the instruction executes
after their results are on the Stash; for Definition, Reassignment,
Conditional, Pair, List, Vector, Begin, Let and Cond the completion
instruction is pushed last and therefore becomes the top of Control,
popped before any sub-expression is evaluated, and the corresponding
instructions raise when they find an empty Stash. -/
theorem C1_decomposition_order :
    (∀ (s : MachineState) (operator : Expr) (operands : List Expr),
      evaluateExpression (.application operator operands) s =
        .ok { s with control := operands.map ControlItem.expr ++
          (ControlItem.expr operator :: .instr (.appI operands.length) :: s.control) }) ∧
    (∀ (s : MachineState) (name : String) (value : Expr),
      evaluateExpression (.definition name value) s =
        .ok { s with control := (.instr (.defineI name) :: .expr value :: s.control) }) ∧
    (∀ (s : MachineState) (name : String) (value : Expr),
      evaluateExpression (.reassignment name value) s =
        .ok { s with control := (.instr (.setI name) :: .expr value :: s.control) }) ∧
    (∀ (s : MachineState) (test consequent alternate : Expr),
      evaluateExpression (.conditional test consequent alternate) s =
        .ok { s with control := (.instr (.branchI consequent alternate) ::
          .expr alternate :: .expr consequent :: .expr test :: s.control) }) ∧
    (∀ (s : MachineState) (car cdr : Expr),
      evaluateExpression (.pairE car cdr) s =
        .ok { s with control := (.instr .pairI :: .expr cdr :: .expr car :: s.control) }) ∧
    (∀ (s : MachineState) (elements : List Expr),
      evaluateExpression (.listE elements) s =
        .ok { s with control := (.instr (.listI elements.length) ::
          (elements.map ControlItem.expr ++ s.control)) }) ∧
    (∀ (s : MachineState) (elements : List Expr),
      evaluateExpression (.vectorE elements) s =
        .ok { s with control := (.instr (.vectorI elements.length) ::
          (elements.map ControlItem.expr ++ s.control)) }) ∧
    (∀ (s : MachineState) (expressions : List Expr),
      evaluateExpression (.beginE expressions) s =
        .ok { s with control := (.instr (.beginI expressions) ::
          (expressions.map ControlItem.expr ++ s.control)) }) ∧
    (∀ (s : MachineState) (identifiers : List String) (values : List Expr) (body : Expr),
      evaluateExpression (.letE identifiers values body) s =
        .ok { s with control := (.instr (.letIn identifiers values.length body) ::
          (values.map ControlItem.expr ++ s.control)) }) ∧
    (∀ (s : MachineState) (ps cs : List Expr) (catchall : Option Expr),
      evaluateExpression (.condE ps cs catchall) s =
        .ok { s with control := (ControlItem.instr (.condI ps cs catchall) ::
          ((match catchall with
            | some c => [ControlItem.expr c]
            | none => []) ++
            (condDecomposeItems ps cs ++ s.control))) }) ∧
    (∀ (ctl : List ControlItem) (env : Nat) (store : List Frame) (name : String),
      evaluateInstruction (.defineI name) ⟨ctl, [], env, store⟩ =
        .error "No value to define") ∧
    (∀ (ctl : List ControlItem) (env : Nat) (store : List Frame) (c a : Expr),
      evaluateInstruction (.branchI c a) ⟨ctl, [], env, store⟩ =
        .error "No test value for branch") ∧
    (∀ (ctl : List ControlItem) (env : Nat) (store : List Frame),
      evaluateInstruction .pairI ⟨ctl, [], env, store⟩ =
        .error "Missing car or cdr for pair") :=
  ⟨fun _ _ _ => rfl, fun _ _ _ => rfl, fun _ _ _ => rfl, fun _ _ _ _ => rfl,
   fun _ _ _ => rfl, fun _ _ => rfl, fun _ _ => rfl, fun _ _ => rfl,
   fun _ _ _ _ => rfl, fun _ _ _ _ => rfl, fun _ _ _ _ => rfl,
   fun _ _ _ _ _ => rfl, fun _ _ _ => rfl⟩

/-- C3 counterexample: the branch completion instruction consuming the
truthy non-boolean test value 42 pushes the alternate, not the
consequent, contradicting the claim that every value other than false
and nil takes the consequent. -/
theorem C3_counterexample :
    evaluateInstruction (.branchI (.numericLiteral "1") (.numericLiteral "2"))
      ⟨[], [.number (QV.ofInt 42)], 0, []⟩ =
      .ok ⟨[.expr (.numericLiteral "2")], [], 0, []⟩ ∧
    Expr.numericLiteral "2" ≠ .numericLiteral "1" :=
  ⟨rfl, by simp⟩

/-- C3 (amended): if the popped test value is a stored undefined the
falsy guard raises the missing-test error exactly as on an empty
Stash; for every other popped value the branch completion instruction
takes the consequent exactly when the test is the boolean true, while
boolean false, nil, and every non-boolean value (numbers, strings,
pairs, procedures) all take the alternate. -/
theorem C3_branch_requires_boolean_true
    (consequent alternate : Expr) (test : Value) (rest : List Value)
    (ctl : List ControlItem) (env : Nat) (store : List Frame) :
    (test ≠ .undef →
      evaluateInstruction (.branchI consequent alternate) ⟨ctl, test :: rest, env, store⟩ =
        .ok ⟨.expr (if jsBranchTrue test then consequent else alternate) :: ctl,
             rest, env, store⟩) ∧
    (jsBranchTrue test = true ↔ test = .booleanV true) ∧
    evaluateInstruction (.branchI consequent alternate) ⟨ctl, .undef :: rest, env, store⟩ =
      .error "No test value for branch" := by
  refine ⟨fun h => ?_, ?_, rfl⟩
  · cases test <;> first | rfl | exact absurd rfl h
  · cases test <;> simp [jsBranchTrue]

/-- Witness for C3: at the concrete non-undefined test value 42 the
branch instruction succeeds and pushes the alternate. -/
theorem C3_branch_requires_boolean_true_witness :
    Value.number (QV.ofInt 42) ≠ .undef ∧
    evaluateInstruction (.branchI (.numericLiteral "7") (.numericLiteral "8"))
      ⟨[], [.number (QV.ofInt 42)], 0, []⟩ =
      .ok ⟨[.expr (.numericLiteral "8")], [], 0, []⟩ := by
  have h := (C3_branch_requires_boolean_true (.numericLiteral "7") (.numericLiteral "8")
    (.number (QV.ofInt 42)) [] [] 0 []).1 (by simp)
  exact ⟨by simp, by simpa [jsBranchTrue] using h⟩

/-- C5 counterexample: the source (* ) does not evaluate to the
integer 1: it parses as a one-element List node holding the identifier
star, and the run returns the star primitive procedure value itself. -/
theorem C5_counterexample :
    parseSchemeSimple "(* )" = .ok [.listE [.identifier "*"]] ∧
    runScheme 100 "(* )" = .ok (some (.primitive "*")) ∧
    Value.primitive "*" ≠ .number QV.one :=
  ⟨rfl, rfl, by simp⟩

/-- C5 (amended): (+ 1 2) parses to exactly one Application node and
evaluates to the number 3, and (- 5) evaluates to the number -5 by
unary negation; but (* ) parses as a one-element List node rather than
a zero-argument application, and its evaluation returns the star
primitive procedure value (the multiplication identity 1 is never
computed). -/
theorem C5_arithmetic_examples :
    parseSchemeSimple "(+ 1 2)" =
      .ok [.application (.identifier "+") [.numericLiteral "1", .numericLiteral "2"]] ∧
    runScheme 100 "(+ 1 2)" = .ok (some (.number (QV.ofInt 3))) ∧
    runScheme 100 "(- 5)" = .ok (some (.number (QV.ofInt (-5)))) ∧
    parseSchemeSimple "(* )" = .ok [.listE [.identifier "*"]] ∧
    runScheme 100 "(* )" = .ok (some (.primitive "*")) :=
  ⟨rfl, rfl, rfl, rfl, rfl⟩

/-- C4 counterexample: the sample non-terminating program of the claim
does not reach evaluation at all, let alone a step limit: the simple
parser has no function-definition sugar and rejects it, so no
configured step limit can raise a step-limit error on it. -/
theorem C4_counterexample :
    parseSchemeSimple "(define (loop) (loop)) (loop)" =
      .error "define name must be an identifier" := rfl

/-- Raised conditions with different messages differ. -/
theorem error_ne_of_msg_ne {msg msg' : String} (h : msg ≠ msg') :
    (Except.error msg : Except String MachineState) ≠ .error msg' :=
  fun he => h ((Except.error.injEq _ _).mp he)

/-- C4 (amended): the evaluator has no step counter, no configurable
step limit and no prelude flag: runCSEMachine loops until Control
drains, and no dispatch step can ever raise a step-limit error, as
every raisable message is one of the fixed machine messages or an
unbound-variable message, none of which is "step limit exceeded".
(The claim's sample program additionally fails at parse time, see the
counterexample.) -/
theorem C4_no_step_limit (item : ControlItem) (s : MachineState) :
    evaluateControlItem item s ≠ .error "step limit exceeded" := by
  obtain ⟨ctl, stash, env, store⟩ := s
  cases item with
  | seq body => simp [evaluateControlItem]
  | expr e =>
    cases e with
    | identifier name =>
      simp only [evaluateControlItem, evaluateExpression]
      cases h : envGet store env name with
      | ok v => simp [h, bind, Except.bind]
      | error m =>
        have hm := envGetAux_error_msg store name _ _ _ h
        subst hm
        simp only [h, bind, Except.bind]
        exact error_ne_of_msg_ne (append_ne_step_limit _ _ (by decide))
    | complexLiteral v =>
      simp only [evaluateControlItem, evaluateExpression]
      cases h : complexFromString v <;> simp [h]
    | numericLiteral v => simp [evaluateControlItem, evaluateExpression]
    | booleanLiteral b => simp [evaluateControlItem, evaluateExpression]
    | stringLiteral v => simp [evaluateControlItem, evaluateExpression]
    | symbolLit v => simp [evaluateControlItem, evaluateExpression]
    | nilE => simp [evaluateControlItem, evaluateExpression]
    | definition n v => simp [evaluateControlItem, evaluateExpression]
    | reassignment n v => simp [evaluateControlItem, evaluateExpression]
    | application op args => simp [evaluateControlItem, evaluateExpression]
    | conditional t c a => simp [evaluateControlItem, evaluateExpression]
    | lambdaE b p => simp [evaluateControlItem, evaluateExpression]
    | pairE a b => simp [evaluateControlItem, evaluateExpression]
    | listE els => simp [evaluateControlItem, evaluateExpression]
    | vectorE els => simp [evaluateControlItem, evaluateExpression]
    | beginE es => simp [evaluateControlItem, evaluateExpression]
    | letE ids vs b => simp [evaluateControlItem, evaluateExpression]
    | condE ps cs c => simp [evaluateControlItem, evaluateExpression]
    | delayE e => simp [evaluateControlItem, evaluateExpression]
  | instr i =>
    cases i with
    | defineI name =>
      cases stash with
      | nil =>
        simp only [evaluateControlItem, evaluateInstruction]
        exact error_ne_of_msg_ne (by decide)
      | cons v rest => cases v <;> simp [evaluateControlItem, evaluateInstruction, Value.isUndef]
    | setI name =>
      cases stash with
      | nil =>
        simp only [evaluateControlItem, evaluateInstruction]
        exact error_ne_of_msg_ne (by decide)
      | cons v rest =>
        simp only [evaluateControlItem, evaluateInstruction]
        split
        · simp
        · cases h : envSet store env name v with
          | ok st => simp [h, bind, Except.bind]
          | error m =>
            have hm := envSetAux_error_msg name v _ _ _ _ h
            subst hm
            simp only [h, bind, Except.bind]
            exact error_ne_of_msg_ne (append_ne_step_limit _ _ (by decide))
    | appI n =>
      cases stash with
      | nil =>
        simp only [evaluateControlItem, evaluateInstruction]
        exact error_ne_of_msg_ne (by decide)
      | cons operator rest =>
        cases operator with
        | primitive name =>
          simp only [evaluateControlItem, evaluateInstruction, Value.isUndef,
            Bool.false_eq_true, if_false]
          cases h : applyPrimitive name ((rest.take n).reverse) <;> simp [h]
        | number q => simp [evaluateControlItem, evaluateInstruction, Value.isUndef]
        | complexV a b => simp [evaluateControlItem, evaluateInstruction, Value.isUndef]
        | booleanV b => simp [evaluateControlItem, evaluateInstruction, Value.isUndef]
        | stringV v => simp [evaluateControlItem, evaluateInstruction, Value.isUndef]
        | symbolV v => simp [evaluateControlItem, evaluateInstruction, Value.isUndef]
        | nilV => simp [evaluateControlItem, evaluateInstruction, Value.isUndef]
        | pairV a b => simp [evaluateControlItem, evaluateInstruction, Value.isUndef]
        | listV l => simp [evaluateControlItem, evaluateInstruction, Value.isUndef]
        | vectorV l => simp [evaluateControlItem, evaluateInstruction, Value.isUndef]
        | closure p b e => simp [evaluateControlItem, evaluateInstruction, Value.isUndef]
        | voidV => simp [evaluateControlItem, evaluateInstruction, Value.isUndef]
        | errorV m => simp [evaluateControlItem, evaluateInstruction, Value.isUndef]
        | undef => simp [evaluateControlItem, evaluateInstruction, Value.isUndef]
    | branchI c a =>
      cases stash with
      | nil =>
        simp only [evaluateControlItem, evaluateInstruction]
        exact error_ne_of_msg_ne (by decide)
      | cons v rest => cases v <;> simp [evaluateControlItem, evaluateInstruction, Value.isUndef]
    | pairI =>
      cases stash with
      | nil =>
        simp only [evaluateControlItem, evaluateInstruction]
        exact error_ne_of_msg_ne (by decide)
      | cons a t =>
        cases t with
        | nil =>
          simp only [evaluateControlItem, evaluateInstruction]
          exact error_ne_of_msg_ne (by decide)
        | cons b t2 =>
          simp only [evaluateControlItem, evaluateInstruction]
          split
          · simp
          · simp
    | listI n => simp [evaluateControlItem, evaluateInstruction]
    | vectorI n => simp [evaluateControlItem, evaluateInstruction]
    | beginI es =>
      cases es with
      | nil => simp [evaluateControlItem, evaluateInstruction]
      | cons e t => cases t <;> simp [evaluateControlItem, evaluateInstruction]
    | letIn ids n b => simp [evaluateControlItem, evaluateInstruction]
    | condI ps cs c =>
      cases ps with
      | nil => cases c <;> simp [evaluateControlItem, evaluateInstruction]
      | cons p t => simp [evaluateControlItem, evaluateInstruction]
    | delayI e =>
      simp only [evaluateControlItem, evaluateInstruction]
      exact error_ne_of_msg_ne (by decide)

/-- C10 counterexample: a single-identifier form whose identifier is a
keyword does not parse to a List node ((begin) parses to an empty
Begin node), and evaluating the single-identifier form (car) yields
the bound value of car itself as the final result, not a one-element
list containing it: the LIST completion instruction runs before the
element is evaluated. -/
theorem C10_counterexample :
    parseSchemeSimple "(begin)" = .ok [.beginE []] ∧
    runScheme 100 "(car)" = .ok (some (.primitive "car")) ∧
    Value.primitive "car" ≠ .listV [.primitive "car"] :=
  ⟨rfl, rfl, by simp⟩

/-- C10 (amended): a parenthesized form holding a single identifier
that is not one of the keyword forms (define, lambda, if, let, begin,
cond) parses to an Extended.List node rather than an Application, so
the identifier is never invoked and a zero-argument procedure cannot
be called through this parser; decomposing a List node pushes only the
list completion instruction and the elements (no application
instruction); but because that instruction is pushed last and pops
first, the final result of running (car) is the bound value of car
itself, not a one-element list. -/
theorem C10_single_identifier_list :
    (∀ (k : Nat) (name : String) (rest : List SToken),
      name ∉ (["define", "lambda", "if", "let", "begin", "cond"] : List String) →
      parseExpression (k + 3)
        (⟨.LPAREN, "("⟩ :: ⟨.IDENTIFIER, name⟩ :: ⟨.RPAREN, ")"⟩ :: rest) =
        .ok (some (.listE [.identifier name]), rest)) ∧
    (∀ (els : List Expr) (s : MachineState),
      evaluateExpression (.listE els) s =
        .ok { s with control := (.instr (.listI els.length) ::
          (els.map ControlItem.expr ++ s.control)) }) ∧
    runScheme 100 "(car)" = .ok (some (.primitive "car")) := by
  refine ⟨?_, fun _ _ => rfl, rfl⟩
  intro k name rest h
  simp only [List.mem_cons, List.mem_singleton, not_or] at h
  obtain ⟨h1, h2, h3, h4, h5, h6, -⟩ := h
  simp [parseExpression, parseListElems, makeParsedList, parseDefine,
    bind, Except.bind, h1, h2, h3, h4, h5, h6]

/-- C10 witness: the identifier foo is not a keyword, and (foo) at the
token level parses to the one-element List node. -/
theorem C10_single_identifier_list_witness :
    ("foo" ∉ (["define", "lambda", "if", "let", "begin", "cond"] : List String)) ∧
    parseExpression 3 [⟨.LPAREN, "("⟩, ⟨.IDENTIFIER, "foo"⟩, ⟨.RPAREN, ")"⟩] =
      .ok (some (.listE [.identifier "foo"]), []) :=
  ⟨by decide, C10_single_identifier_list.1 0 "foo" [] (by decide)⟩

/-- Appending a most-significant digit. -/
theorem vN_append (l : List Nat) (d : Nat) :
    vN (l ++ [d]) = vN l + d * 10 ^ l.length := by
  induction l with
  | nil => simp [vN]
  | cons x l ih => simp [vN, ih]; ring

/-- The foldl of valDigits against the little-endian value. -/
theorem valDigits_foldl (cs : List Char) : ∀ a : Nat,
    cs.foldl (fun a c => 10 * a + charVal c) a =
      a * 10 ^ cs.length + vN (cs.reverse.map charVal) := by
  induction cs with
  | nil => intro a; simp [vN]
  | cons c cs ih =>
    intro a
    simp only [List.foldl_cons, ih, List.reverse_cons, List.map_append,
      List.map_cons, List.map_nil, vN_append, List.length_map,
      List.length_reverse, List.length_cons]
    ring

/-- valDigits through the little-endian value of the reversed run. -/
theorem valDigits_eq (cs : List Char) :
    valDigits cs = vN (cs.reverse.map charVal) := by
  have h := valDigits_foldl cs 0
  simpa [valDigits] using h

/-- A digit list with a nonzero leading digit has a positive value. -/
theorem vN_pos (L : List Nat) (hne : L ≠ []) (hlast : L.getLast? ≠ some 0) :
    0 < vN L := by
  induction L with
  | nil => simp at hne
  | cons d L ih =>
    have hv : vN (d :: L) = d + 10 * vN L := rfl
    cases L with
    | nil =>
      simp [List.getLast?] at hlast
      omega
    | cons x t =>
      have h2 : (x :: t).getLast? ≠ some 0 := by
        rwa [List.getLast?_cons_cons] at hlast
      have := ih (by simp) h2
      omega

/-- Printing the value of a digit list with a nonzero most significant
digit recovers the list. -/
theorem digitsRevAux_vN : ∀ (L : List Nat) (f : Nat), vN L ≤ f →
    (∀ d ∈ L, d < 10) → L.getLast? ≠ some 0 → digitsRevAux f (vN L) = L := by
  intro L
  induction L with
  | nil => intro f _ _ _; cases f <;> simp [digitsRevAux, vN]
  | cons d L ih =>
    intro f hf hlt hlast
    have hv : vN (d :: L) = d + 10 * vN L := rfl
    have hd10 : d < 10 := hlt d (by simp)
    have hpos : 0 < vN (d :: L) := by
      cases L with
      | nil =>
        simp [List.getLast?] at hlast
        omega
      | cons x t =>
        have := vN_pos (x :: t) (by simp)
          (by rwa [List.getLast?_cons_cons] at hlast)
        rw [hv]
        omega
    obtain ⟨f', rfl⟩ : ∃ f', f = f' + 1 := by
      cases f
      · omega
      · exact ⟨_, rfl⟩
    simp only [digitsRevAux]
    rw [if_neg (by omega)]
    have hmod : vN (d :: L) % 10 = d := by omega
    have hdiv : vN (d :: L) / 10 = vN L := by omega
    rw [hmod, hdiv]
    congr 1
    cases hL : L with
    | nil => cases f' <;> simp [digitsRevAux, vN]
    | cons x t =>
      subst hL
      have hpos' : 0 < vN (x :: t) := vN_pos _ (by simp)
        (by rwa [List.getLast?_cons_cons] at hlast)
      apply ih
      · omega
      · intro z hz
        exact hlt z (by simp [hz])
      · rwa [List.getLast?_cons_cons] at hlast

/-- A digit character has value below ten. -/
theorem charVal_lt_ten {c : Char} (h : isDigitChar c = true) : charVal c < 10 := by
  simp only [isDigitChar, decide_eq_true_eq, Bool.decide_and, Bool.and_eq_true,
    decide_eq_true_eq] at h
  unfold charVal
  omega

/-- Printing the value of a digit character recovers it. -/
theorem digitChar_charVal {c : Char} (h : isDigitChar c = true) :
    digitChar (charVal c) = c := by
  simp only [isDigitChar, decide_eq_true_eq, Bool.decide_and, Bool.and_eq_true,
    decide_eq_true_eq] at h
  have hcv : charVal c + 48 = c.toNat := by
    unfold charVal
    omega
  rw [digitChar, hcv, Char.ofNat_toNat]

/-- Only the zero digit has value zero. -/
theorem charVal_ne_zero {c : Char} (h : isDigitChar c = true) (hne : c ≠ '0') :
    charVal c ≠ 0 := by
  intro h0
  apply hne
  simp only [isDigitChar, decide_eq_true_eq, Bool.decide_and, Bool.and_eq_true,
    decide_eq_true_eq] at h
  have h48 : c.toNat = 48 := by
    unfold charVal at h0
    omega
  calc c = Char.ofNat c.toNat := (Char.ofNat_toNat c).symm
    _ = Char.ofNat 48 := by rw [h48]
    _ = '0' := by decide

/-- The canonical decimal printer recovers a digit run with no
redundant leading zero. -/
theorem natToString_digits (cs : List Char) (hd : ∀ c ∈ cs, isDigitChar c = true)
    (hne : cs ≠ []) (hhead : cs.head? = some '0' → cs = ['0']) :
    natToString (valDigits cs) = String.mk cs := by
  by_cases h0 : cs = ['0']
  · subst h0
    rfl
  · obtain ⟨c0, cs', rfl⟩ : ∃ c0 cs', cs = c0 :: cs' := by
      cases cs
      · exact absurd rfl hne
      · exact ⟨_, _, rfl⟩
    have hc0 : c0 ≠ '0' := fun h => h0 (hhead (by simp [h]))
    have hLlast : ((c0 :: cs').reverse.map charVal).getLast? ≠ some 0 := by
      rw [List.getLast?_map, List.getLast?_reverse]
      simp only [List.head?_cons, Option.map_some]
      intro hx
      exact charVal_ne_zero (hd c0 (by simp)) hc0 (Option.some.inj hx)
    have hLlt : ∀ d ∈ (c0 :: cs').reverse.map charVal, d < 10 := by
      intro d hdm
      simp only [List.mem_map, List.mem_reverse] at hdm
      obtain ⟨c, hc, rfl⟩ := hdm
      exact charVal_lt_ten (hd c hc)
    have hvpos : 0 < vN ((c0 :: cs').reverse.map charVal) :=
      vN_pos _ (by simp) hLlast
    rw [valDigits_eq]
    rw [natToString, if_neg (by omega)]
    rw [digitsRevAux_vN _ _ le_rfl hLlt hLlast]
    congr 1
    rw [← List.map_reverse, List.reverse_reverse, List.map_map]
    calc (c0 :: cs').map (digitChar ∘ charVal)
        = (c0 :: cs').map id := List.map_congr_left (fun c hc => digitChar_charVal (hd c hc))
      _ = c0 :: cs' := List.map_id _

/-- A digit run with nonzero leading digit has positive value. -/
theorem valDigits_pos {c0 : Char} (cs' : List Char)
    (hd0 : isDigitChar c0 = true) (hc0 : c0 ≠ '0') :
    0 < valDigits (c0 :: cs') := by
  rw [valDigits_eq]
  refine vN_pos _ (by simp) ?_
  rw [List.getLast?_map, List.getLast?_reverse]
  simp only [List.head?_cons, Option.map_some]
  intro hx
  exact charVal_ne_zero hd0 hc0 (Option.some.inj hx)

/-- C7 (amended): every lexeme of an optional sign and digits is
accepted by the integer classifier with the whole lexeme as its match
value; the toString of the built value is the canonical decimal
numeral of the lexeme, which equals the lexeme with a leading plus
dropped whenever the lexeme has no redundant leading zero and is not a
negative zero (in general leading zeros are also dropped and -0 prints
as 0, see the counterexample). -/
theorem C7_integer_classify_roundtrip (s : String)
    (h : isIntegerLexeme s.data = true) :
    isInteger s = some s ∧
    (canonicalIntegerLexeme s.data = true →
      intToString (jsBigInt s) = dropLeadingPlus s) := by
  refine ⟨by simp [isInteger, h], fun hc => ?_⟩
  obtain ⟨l⟩ := s
  cases l with
  | nil =>
    exfalso
    simp [isIntegerLexeme, integerLexemeDigits] at h
  | cons c cs =>
    by_cases hplus : c = '+'
    · subst hplus
      have hds : integerLexemeDigits ('+' :: cs) = cs := by
        simp [integerLexemeDigits]
      simp only [String.data, isIntegerLexeme, hds, Bool.and_eq_true,
        decide_eq_true_eq, List.all_eq_true] at h
      obtain ⟨hne, hall⟩ := h
      obtain ⟨d, rest, rfl⟩ : ∃ d rest, cs = d :: rest := by
        cases cs
        · exact absurd rfl hne
        · exact ⟨_, _, rfl⟩
      simp only [String.data, canonicalIntegerLexeme, hds, Bool.and_eq_true,
        Bool.or_eq_true, decide_eq_true_eq, List.head?_cons, Bool.not_eq_true',
        Bool.and_eq_false_iff, decide_eq_false_iff_not] at hc
      have hhead : (d :: rest).head? = some '0' → d :: rest = ['0'] := by
        intro hx
        have hd0 : d = '0' := by simpa using hx
        subst hd0
        rcases hc.1 with h1 | h1
        · rw [h1]
        · exact absurd rfl h1
      have hroundtrip := natToString_digits (d :: rest) hall (by simp) hhead
      show intToString (jsBigInt (String.mk ('+' :: d :: rest))) =
        dropLeadingPlus (String.mk ('+' :: d :: rest))
      rw [jsBigInt]
      simp only [String.data, if_true, if_false]
      rw [dropLeadingPlus]
      simp only [String.data, if_true, if_false]
      rw [intToString, if_neg (by omega)]
      rw [Int.natAbs_ofNat]
      exact hroundtrip
    · by_cases hminus : c = '-'
      · subst hminus
        have hds : integerLexemeDigits ('-' :: cs) = cs := by
          simp [integerLexemeDigits]
        simp only [String.data, isIntegerLexeme, hds, Bool.and_eq_true,
          decide_eq_true_eq, List.all_eq_true] at h
        obtain ⟨hne, hall⟩ := h
        obtain ⟨d, rest, rfl⟩ : ∃ d rest, cs = d :: rest := by
          cases cs
          · exact absurd rfl hne
          · exact ⟨_, _, rfl⟩
        simp only [String.data, canonicalIntegerLexeme, hds, Bool.and_eq_true,
          Bool.or_eq_true, decide_eq_true_eq, List.head?_cons, Bool.not_eq_true',
          Bool.and_eq_false_iff, decide_eq_false_iff_not] at hc
        have hnotzero : d :: rest ≠ ['0'] := by
          rcases hc.2 with h2 | h2
          · exact absurd trivial h2
          · exact h2
        have hd0 : d ≠ '0' := by
          intro hd0
          subst hd0
          rcases hc.1 with h1 | h1
          · exact hnotzero (by rw [h1])
          · exact h1 rfl
        have hpos : 0 < valDigits (d :: rest) :=
          valDigits_pos rest (hall d (by simp)) hd0
        have hroundtrip := natToString_digits (d :: rest) hall (by simp)
          (fun hx => absurd (by simpa using hx) hd0)
        show intToString (jsBigInt (String.mk ('-' :: d :: rest))) =
          dropLeadingPlus (String.mk ('-' :: d :: rest))
        rw [jsBigInt]
        simp only [String.data, if_true, if_false]
        rw [if_neg (show ¬('-' = '+') by decide)]
        rw [dropLeadingPlus]
        simp only [String.data, if_true, if_false]
        rw [if_neg (show ¬('-' = '+') by decide)]
        rw [intToString, if_pos (by omega)]
        rw [Int.natAbs_neg, Int.natAbs_ofNat]
        rw [hroundtrip]
        rfl
      · have hds : integerLexemeDigits (c :: cs) = c :: cs := by
          simp [integerLexemeDigits, hplus, hminus]
        simp only [String.data, isIntegerLexeme, hds, Bool.and_eq_true,
          decide_eq_true_eq, List.all_eq_true] at h
        obtain ⟨-, hall⟩ := h
        simp only [String.data, canonicalIntegerLexeme, hds, Bool.and_eq_true,
          Bool.or_eq_true, decide_eq_true_eq, List.head?_cons, Bool.not_eq_true',
          Bool.and_eq_false_iff, decide_eq_false_iff_not] at hc
        have hhead : (c :: cs).head? = some '0' → c :: cs = ['0'] := by
          intro hx
          have hc0 : c = '0' := by simpa using hx
          subst hc0
          rcases hc.1 with h1 | h1
          · rw [h1]
          · exact absurd rfl h1
        have hroundtrip := natToString_digits (c :: cs) hall (by simp) hhead
        show intToString (jsBigInt (String.mk (c :: cs))) =
          dropLeadingPlus (String.mk (c :: cs))
        rw [jsBigInt]
        simp only [String.data]
        rw [if_neg hplus, if_neg hminus]
        rw [dropLeadingPlus]
        simp only [String.data]
        rw [if_neg hplus]
        rw [intToString, if_neg (by omega)]
        rw [Int.natAbs_ofNat]
        exact hroundtrip

/-- C7 counterexample: the valid integer lexeme 007 is classified
successfully, but the built value prints as 7, not 007, although no
leading plus was dropped: the round-trip fails on redundant leading
zeros. -/
theorem C7_counterexample :
    isInteger "007" = some "007" ∧
    intToString (jsBigInt "007") = "7" ∧
    dropLeadingPlus "007" = "007" ∧
    ("7" : String) ≠ "007" :=
  ⟨rfl, rfl, rfl, by decide⟩

/-- C7 witness: the canonical lexeme +42 is classified and
round-trips to 42. -/
theorem C7_integer_classify_roundtrip_witness :
    isIntegerLexeme ("+42" : String).data = true ∧
    canonicalIntegerLexeme ("+42" : String).data = true ∧
    isInteger "+42" = some "+42" ∧
    intToString (jsBigInt "+42") = dropLeadingPlus "+42" := by
  refine ⟨by decide, by decide, ?_, ?_⟩
  · exact (C7_integer_classify_roundtrip "+42" (by decide)).1
  · exact (C7_integer_classify_roundtrip "+42" (by decide)).2 (by decide)

/-- Commutativity of the modelled double addition. -/
theorem qAdd_comm (a b : QV) : QV.add a b = QV.add b a := by
  unfold QV.add
  rw [Int.add_comm (a.num * b.den) (b.num * a.den), Int.mul_comm a.den b.den]

/-- Commutativity of the modelled double multiplication. -/
theorem qMul_comm (a b : QV) : QV.mul a b = QV.mul b a := by
  unfold QV.mul
  rw [Int.mul_comm a.num b.num, Int.mul_comm a.den b.den]

/-- IEEE addition (including the sentinels) is commutative. -/
theorem jsAdd_comm (a b : JSNum) : JSNum.add a b = JSNum.add b a := by
  cases a <;> cases b <;> simp [JSNum.add, qAdd_comm]

/-- IEEE multiplication (including the sentinels) is commutative. -/
theorem jsMul_comm (a b : JSNum) : JSNum.mul a b = JSNum.mul b a := by
  cases a <;> cases b <;> simp [JSNum.mul, qMul_comm]

/-- The rational-addition build arguments are symmetric. -/
theorem rat_add_build_comm (n d n' d' : Int) :
    SchemeRational.build (n * d' + n' * d) (d * d') false =
      SchemeRational.build (n' * d + n * d') (d' * d) false := by
  rw [Int.add_comm (n * d') (n' * d), Int.mul_comm d d']

/-- The rational-multiplication build arguments are symmetric. -/
theorem rat_mul_build_comm (n d n' d' : Int) :
    SchemeRational.build (n * n') (d * d') false =
      SchemeRational.build (n' * n) (d' * d) false := by
  rw [Int.mul_comm n n', Int.mul_comm d d']

/-- Building a rational with the force flag never demotes. -/
theorem build_force_rat (v d : Int) :
    ∃ X Y, SchemeRational.build v d true = .rat X Y := by
  unfold SchemeRational.build SchemeRational.simplify
  simp only [not_true, and_false, if_false]
  exact ⟨_, _, rfl⟩

/-- C8: equalify always returns two values of equal level, the
maximum of the two input levels (promotion raises the lower operand
and never fails), and atomic_add and atomic_multiply are commutative
for all operand pairs at the Integer, Rational or Real levels,
including mixed-level pairs. -/
theorem C8_equalify_levels_and_commutativity :
    (∀ a b : SchemeNumber, ∃ x y, equalify a b = .ok (x, y) ∧
      x.level = y.level ∧ x.level = max a.level b.level) ∧
    (∀ a b : BasicNumber,
      atomic_add (.basic a) (.basic b) = atomic_add (.basic b) (.basic a)) ∧
    (∀ a b : BasicNumber,
      atomic_multiply (.basic a) (.basic b) = atomic_multiply (.basic b) (.basic a)) := by
  refine ⟨?_, ?_, ?_⟩
  · intro a b
    rcases a with (⟨v⟩ | ⟨n, d⟩ | ⟨r⟩) | ⟨re, im⟩ <;>
      rcases b with (⟨v'⟩ | ⟨n', d'⟩ | ⟨r'⟩) | ⟨re', im'⟩ <;>
      exact ⟨_, _, rfl, rfl, rfl⟩
  · intro a b
    cases a with
    | int v =>
      cases b with
      | int w =>
        show (Except.ok (SchemeNumber.basic (BasicNumber.int (v + w))) :
            Except String SchemeNumber) = .ok (.basic (.int (w + v)))
        rw [Int.add_comm]
      | rat n' d' =>
        show (Except.ok (SchemeNumber.simplify (.basic (BasicNumber.addSame
            (SchemeRational.build v 1 true) (.rat n' d')))) :
            Except String SchemeNumber) =
          .ok (SchemeNumber.simplify (.basic (BasicNumber.addSame
            (.rat n' d') (SchemeRational.build v 1 true))))
        obtain ⟨X, Y, hXY⟩ := build_force_rat v 1
        rw [hXY]
        show (Except.ok (SchemeNumber.simplify (.basic
            (SchemeRational.build (X * d' + n' * Y) (Y * d') false))) :
            Except String SchemeNumber) =
          .ok (SchemeNumber.simplify (.basic
            (SchemeRational.build (n' * Y + X * d') (d' * Y) false)))
        rw [rat_add_build_comm]
      | real r' =>
        show (Except.ok (SchemeNumber.simplify (.basic (.real
            (JSNum.add (SchemeInteger.coerce v) r')))) :
            Except String SchemeNumber) =
          .ok (SchemeNumber.simplify (.basic (.real
            (JSNum.add r' (SchemeInteger.coerce v)))))
        rw [jsAdd_comm]
    | rat n d =>
      cases b with
      | int v' =>
        show (Except.ok (SchemeNumber.simplify (.basic (BasicNumber.addSame
            (.rat n d) (SchemeRational.build v' 1 true)))) :
            Except String SchemeNumber) =
          .ok (SchemeNumber.simplify (.basic (BasicNumber.addSame
            (SchemeRational.build v' 1 true) (.rat n d))))
        obtain ⟨X, Y, hXY⟩ := build_force_rat v' 1
        rw [hXY]
        show (Except.ok (SchemeNumber.simplify (.basic
            (SchemeRational.build (n * Y + X * d) (d * Y) false))) :
            Except String SchemeNumber) =
          .ok (SchemeNumber.simplify (.basic
            (SchemeRational.build (X * d + n * Y) (Y * d) false)))
        rw [rat_add_build_comm]
      | rat n' d' =>
        show (Except.ok (SchemeNumber.simplify (.basic
            (SchemeRational.build (n * d' + n' * d) (d * d') false))) :
            Except String SchemeNumber) =
          .ok (SchemeNumber.simplify (.basic
            (SchemeRational.build (n' * d + n * d') (d' * d) false)))
        rw [rat_add_build_comm]
      | real r' =>
        show (Except.ok (SchemeNumber.simplify (.basic (.real
            (JSNum.add (SchemeRational.coerce n d) r')))) :
            Except String SchemeNumber) =
          .ok (SchemeNumber.simplify (.basic (.real
            (JSNum.add r' (SchemeRational.coerce n d)))))
        rw [jsAdd_comm]
    | real r =>
      cases b with
      | int v' =>
        show (Except.ok (SchemeNumber.simplify (.basic (.real
            (JSNum.add r (SchemeInteger.coerce v'))))) :
            Except String SchemeNumber) =
          .ok (SchemeNumber.simplify (.basic (.real
            (JSNum.add (SchemeInteger.coerce v') r))))
        rw [jsAdd_comm]
      | rat n' d' =>
        show (Except.ok (SchemeNumber.simplify (.basic (.real
            (JSNum.add r (SchemeRational.coerce n' d'))))) :
            Except String SchemeNumber) =
          .ok (SchemeNumber.simplify (.basic (.real
            (JSNum.add (SchemeRational.coerce n' d') r))))
        rw [jsAdd_comm]
      | real r' =>
        show (Except.ok (SchemeNumber.simplify (.basic (.real
            (JSNum.add r r')))) : Except String SchemeNumber) =
          .ok (SchemeNumber.simplify (.basic (.real (JSNum.add r' r))))
        rw [jsAdd_comm]
  · intro a b
    cases a with
    | int v =>
      cases b with
      | int w =>
        show (Except.ok (SchemeNumber.basic (BasicNumber.int (v * w))) :
            Except String SchemeNumber) = .ok (.basic (.int (w * v)))
        rw [Int.mul_comm]
      | rat n' d' =>
        show (Except.ok (SchemeNumber.simplify (.basic (BasicNumber.mulSame
            (SchemeRational.build v 1 true) (.rat n' d')))) :
            Except String SchemeNumber) =
          .ok (SchemeNumber.simplify (.basic (BasicNumber.mulSame
            (.rat n' d') (SchemeRational.build v 1 true))))
        obtain ⟨X, Y, hXY⟩ := build_force_rat v 1
        rw [hXY]
        show (Except.ok (SchemeNumber.simplify (.basic
            (SchemeRational.build (X * n') (Y * d') false))) :
            Except String SchemeNumber) =
          .ok (SchemeNumber.simplify (.basic
            (SchemeRational.build (n' * X) (d' * Y) false)))
        rw [rat_mul_build_comm]
      | real r' =>
        show (Except.ok (SchemeNumber.simplify (.basic (.real
            (JSNum.mul (SchemeInteger.coerce v) r')))) :
            Except String SchemeNumber) =
          .ok (SchemeNumber.simplify (.basic (.real
            (JSNum.mul r' (SchemeInteger.coerce v)))))
        rw [jsMul_comm]
    | rat n d =>
      cases b with
      | int v' =>
        show (Except.ok (SchemeNumber.simplify (.basic (BasicNumber.mulSame
            (.rat n d) (SchemeRational.build v' 1 true)))) :
            Except String SchemeNumber) =
          .ok (SchemeNumber.simplify (.basic (BasicNumber.mulSame
            (SchemeRational.build v' 1 true) (.rat n d))))
        obtain ⟨X, Y, hXY⟩ := build_force_rat v' 1
        rw [hXY]
        show (Except.ok (SchemeNumber.simplify (.basic
            (SchemeRational.build (n * X) (d * Y) false))) :
            Except String SchemeNumber) =
          .ok (SchemeNumber.simplify (.basic
            (SchemeRational.build (X * n) (Y * d) false)))
        rw [rat_mul_build_comm]
      | rat n' d' =>
        show (Except.ok (SchemeNumber.simplify (.basic
            (SchemeRational.build (n * n') (d * d') false))) :
            Except String SchemeNumber) =
          .ok (SchemeNumber.simplify (.basic
            (SchemeRational.build (n' * n) (d' * d) false)))
        rw [rat_mul_build_comm]
      | real r' =>
        show (Except.ok (SchemeNumber.simplify (.basic (.real
            (JSNum.mul (SchemeRational.coerce n d) r')))) :
            Except String SchemeNumber) =
          .ok (SchemeNumber.simplify (.basic (.real
            (JSNum.mul r' (SchemeRational.coerce n d)))))
        rw [jsMul_comm]
    | real r =>
      cases b with
      | int v' =>
        show (Except.ok (SchemeNumber.simplify (.basic (.real
            (JSNum.mul r (SchemeInteger.coerce v'))))) :
            Except String SchemeNumber) =
          .ok (SchemeNumber.simplify (.basic (.real
            (JSNum.mul (SchemeInteger.coerce v') r))))
        rw [jsMul_comm]
      | rat n' d' =>
        show (Except.ok (SchemeNumber.simplify (.basic (.real
            (JSNum.mul r (SchemeRational.coerce n' d'))))) :
            Except String SchemeNumber) =
          .ok (SchemeNumber.simplify (.basic (.real
            (JSNum.mul (SchemeRational.coerce n' d') r))))
        rw [jsMul_comm]
      | real r' =>
        show (Except.ok (SchemeNumber.simplify (.basic (.real
            (JSNum.mul r r')))) : Except String SchemeNumber) =
          .ok (SchemeNumber.simplify (.basic (.real (JSNum.mul r' r))))
        rw [jsMul_comm]
